import Mathlib

/-!
# Mailing-list subscriber registry (`maildatabase`, `jsonapi`)

A shallow embedding of the Go packages `maildatabase` (src/maildatabase/mdb.go)
and `jsonapi` (src/jsonapi/jsonapi.go).

The storage functions send SQL text to SQLite.  The SQL text is kept verbatim
as string constants; a small SQL front end (tokenizer, parser) and an executor
for the statement forms the program uses stand in for the SQLite library.  The
database holds at most the one table `emails`.
-/

set_option autoImplicit false

deriving instance DecidableEq for Except

namespace sqlite

/-! ## SQL front end -/

/-- Lexical tokens of the SQL fragment. -/
inductive Tok where
  | word (s : String)
  | num (n : Nat)
  | lparen
  | rparen
  | comma
  | eq
  | qmark
  | semi
  | bad (c : Char)
  deriving DecidableEq, Repr

/-- Characters that may appear in an identifier, keyword or integer literal. -/
def isWordChar (c : Char) : Bool :=
  c.isAlphanum || c == '_' || c == '$'

/-- Blank characters between tokens. -/
def isBlank (c : Char) : Bool :=
  c == ' ' || c == '\t' || c == '\n' || c == '\r' || c == '\x0c'

/-- Value of a run of decimal digits (most significant first). -/
def digitsValue (cs : List Char) : Nat :=
  cs.foldl (fun acc c => 10 * acc + (c.toNat - '0'.toNat)) 0

/-- Token for a finished run of word characters, given in reverse. -/
def wordTok (rev : List Char) : List Tok :=
  match rev.reverse with
  | [] => []
  | c :: cs =>
    if (c :: cs).all Char.isDigit then [Tok.num (digitsValue (c :: cs))]
    else if c.isDigit then [Tok.bad c]
    else [Tok.word (String.mk (c :: cs))]

/-- Token for a single non-word character. -/
def punctTok (c : Char) : List Tok :=
  if isBlank c then []
  else if c == '(' then [Tok.lparen]
  else if c == ')' then [Tok.rparen]
  else if c == ',' then [Tok.comma]
  else if c == '=' then [Tok.eq]
  else if c == '?' then [Tok.qmark]
  else if c == ';' then [Tok.semi]
  else [Tok.bad c]

/-- Scans the characters left to right; `acc` is the current word, reversed. -/
def tokenizeAux : List Char → List Char → List Tok
  | [], acc => wordTok acc
  | c :: cs, acc =>
    if isWordChar c then tokenizeAux cs (c :: acc)
    else wordTok acc ++ punctTok c ++ tokenizeAux cs []

/-- Splits SQL text into tokens. -/
def tokenize (sql : String) : List Tok :=
  tokenizeAux sql.data []

/-- An error reported by SQLite: primary result code, extended code, message. -/
structure SqlError where
  code : Nat
  extended : Nat
  msg : String
  deriving DecidableEq, Repr

/-- Source text of a token, for error messages. -/
def Tok.text : Tok → String
  | .word s => s
  | .num n => toString n
  | .lparen => "("
  | .rparen => ")"
  | .comma => ","
  | .eq => "="
  | .qmark => "?"
  | .semi => ";"
  | .bad c => String.mk [c]

/-- SQLITE_ERROR (1) raised by the parser at the first token it cannot accept. -/
def syntaxError : List Tok → SqlError
  | [] => ⟨1, 1, "incomplete input"⟩
  | t :: _ => ⟨1, 1, "near \"" ++ t.text ++ "\": syntax error"⟩

/-- ASCII upper-casing of one character. -/
def upperChar (c : Char) : Char :=
  if c.isLower then Char.ofNat (c.toNat - 32) else c

/-- Keywords are matched without regard to case. -/
def isKw (w : String) (kw : String) : Bool :=
  w.data.map upperChar == kw.data

/-- Keywords of the fragment that cannot be used as a name. -/
def reservedWords : List String :=
  ["CREATE", "TABLE", "INSERT", "INTO", "VALUES", "ON", "UPDATE", "SET", "SELECT",
   "FROM", "WHERE", "ORDER", "LIMIT", "PRIMARY", "UNIQUE"]

/-- A word usable as a table or column name. -/
def isName (w : String) : Bool :=
  !(reservedWords.any (isKw w))

/-- Scalar expressions: a positional `?` parameter, an integer literal, or a
bare name (a column, or the literals `true` / `false`). -/
inductive Expr where
  | param (i : Nat)
  | int (n : Int)
  | name (s : String)
  deriving DecidableEq, Repr

/-- A column definition of CREATE TABLE. -/
structure ColDef where
  name : String
  type : Option String
  primaryKey : Bool
  unique : Bool
  deriving DecidableEq, Repr

/-- The `ON CONFLICT (col) DO UPDATE SET ...` clause of an INSERT. -/
structure Upsert where
  target : String
  sets : List (String × Expr)
  deriving DecidableEq, Repr

/-- Parsed statements. -/
inductive Stmt where
  | createTable (table : String) (cols : List ColDef)
  | insert (table : String) (cols : List String) (vals : List Expr) (upsert : Option Upsert)
  | select (cols : List String) (table : String) (cond : Option (Expr × Expr))
      (orderBy : Option String) (limit : Option Expr) (offset : Option Expr)
  | update (table : String) (sets : List (String × Expr)) (cond : Option (Expr × Expr))
  deriving DecidableEq, Repr

/-- One-token expressions; `n` is the number of `?` seen so far. -/
def exprOfTok (n : Nat) : Tok → Option (Expr × Nat)
  | .qmark => some (.param n, n + 1)
  | .num k => some (.int k, n)
  | .word w => if isName w then some (.name w, n) else none
  | _ => none

/-- The statement must end here (an optional `;` apart). -/
def parseEnd {α : Type} (a : α) : List Tok → Except SqlError α
  | [] => .ok a
  | [.semi] => .ok a
  | ts => .error (syntaxError ts)

/-- Parses `name {, name}`. -/
def parseNameList : List Tok → Except SqlError (List String × List Tok)
  | .word w :: ts =>
    if isName w then
      match ts with
      | .comma :: ts' =>
        match parseNameList ts' with
        | .ok (ws, rest) => .ok (w :: ws, rest)
        | .error e => .error e
      | _ => .ok ([w], ts)
    else .error (syntaxError (.word w :: ts))
  | ts => .error (syntaxError ts)

/-- Parses `expr {, expr}`. -/
def parseExprList (n : Nat) : List Tok → Except SqlError (List Expr × Nat × List Tok)
  | [] => .error (syntaxError [])
  | t :: ts =>
    match exprOfTok n t with
    | none => .error (syntaxError (t :: ts))
    | some (e, n') =>
      match ts with
      | .comma :: ts' =>
        match parseExprList n' ts' with
        | .ok (es, m, rest) => .ok (e :: es, m, rest)
        | .error err => .error err
      | _ => .ok ([e], n', ts)

/-- Parses `name = expr {, name = expr}`; assignments are separated by commas. -/
def parseSetList (n : Nat) : List Tok → Except SqlError (List (String × Expr) × Nat × List Tok)
  | .word c :: .eq :: t :: ts =>
    if isName c then
      match exprOfTok n t with
      | none => .error (syntaxError (t :: ts))
      | some (e, n') =>
        match ts with
        | .comma :: ts' =>
          match parseSetList n' ts' with
          | .ok (ss, m, rest) => .ok ((c, e) :: ss, m, rest)
          | .error err => .error err
        | _ => .ok ([(c, e)], n', ts)
    else .error (syntaxError (.word c :: .eq :: t :: ts))
  | .word c :: .eq :: [] => if isName c then .error (syntaxError []) else .error (syntaxError [.word c])
  | .word c :: t :: ts => if isName c then .error (syntaxError (t :: ts)) else .error (syntaxError [.word c])
  | ts => .error (syntaxError ts)

/-- Parses `expr = expr`. -/
def parseCond (n : Nat) : List Tok → Except SqlError ((Expr × Expr) × Nat × List Tok)
  | l :: .eq :: r :: ts =>
    match exprOfTok n l with
    | none => .error (syntaxError (l :: .eq :: r :: ts))
    | some (el, n1) =>
      match exprOfTok n1 r with
      | none => .error (syntaxError (r :: ts))
      | some (er, n2) => .ok ((el, er), n2, ts)
  | ts => .error (syntaxError ts)

/-- Where the column-list parser of CREATE TABLE stands. -/
inductive ColState where
  | expectName
  | afterName (c : ColDef)
  | afterType (c : ColDef)
  deriving DecidableEq, Repr

/-- Parses the column definitions of CREATE TABLE up to the closing parenthesis.
After a comma another column definition has to follow. -/
def parseColDefs : ColState → List ColDef → List Tok → Except SqlError (List ColDef × List Tok)
  | .expectName, acc, .word w :: ts =>
    if isName w then parseColDefs (.afterName ⟨w, none, false, false⟩) acc ts
    else .error (syntaxError (.word w :: ts))
  | .expectName, _, ts => .error (syntaxError ts)
  | .afterName c, acc, .word w :: ts =>
    if isKw w "PRIMARY" then
      match ts with
      | .word k :: ts' =>
        if isKw k "KEY" then parseColDefs (.afterType { c with primaryKey := true }) acc ts'
        else .error (syntaxError (.word k :: ts'))
      | _ => .error (syntaxError ts)
    else if isKw w "UNIQUE" then parseColDefs (.afterType { c with unique := true }) acc ts
    else if isName w then parseColDefs (.afterType { c with type := some w }) acc ts
    else .error (syntaxError (.word w :: ts))
  | .afterType c, acc, .word w :: ts =>
    if isKw w "PRIMARY" then
      match ts with
      | .word k :: ts' =>
        if isKw k "KEY" then parseColDefs (.afterType { c with primaryKey := true }) acc ts'
        else .error (syntaxError (.word k :: ts'))
      | _ => .error (syntaxError ts)
    else if isKw w "UNIQUE" then parseColDefs (.afterType { c with unique := true }) acc ts
    else .error (syntaxError (.word w :: ts))
  | .afterName c, acc, .comma :: ts => parseColDefs .expectName (acc ++ [c]) ts
  | .afterType c, acc, .comma :: ts => parseColDefs .expectName (acc ++ [c]) ts
  | .afterName c, acc, .rparen :: ts => .ok (acc ++ [c], ts)
  | .afterType c, acc, .rparen :: ts => .ok (acc ++ [c], ts)
  | _, _, ts => .error (syntaxError ts)

/-- Consumes the keyword `kw`. -/
def expectKw (kw : String) : List Tok → Except SqlError (List Tok)
  | .word w :: ts => if isKw w kw then .ok ts else .error (syntaxError (.word w :: ts))
  | ts => .error (syntaxError ts)

/-- Consumes the token `t`. -/
def expectTok (t : Tok) : List Tok → Except SqlError (List Tok)
  | [] => .error (syntaxError [])
  | u :: ts => if u = t then .ok ts else .error (syntaxError (u :: ts))

/-- Consumes a table or column name. -/
def expectName : List Tok → Except SqlError (String × List Tok)
  | .word w :: ts => if isName w then .ok (w, ts) else .error (syntaxError (.word w :: ts))
  | ts => .error (syntaxError ts)

/-- Does the input start with the keyword `kw`? -/
def startsWithKw (kw : String) : List Tok → Bool
  | .word w :: _ => isKw w kw
  | _ => false

/-- Parses `[WHERE expr = expr]`. -/
def parseWhereOpt (n : Nat) (ts : List Tok) :
    Except SqlError (Option (Expr × Expr) × Nat × List Tok) :=
  if startsWithKw "WHERE" ts then
    match parseCond n ts.tail with
    | .ok (c, m, rest) => .ok (some c, m, rest)
    | .error e => .error e
  else .ok (none, n, ts)

/-- Parses `[ORDER BY name [ASC]]`. -/
def parseOrderOpt (ts : List Tok) : Except SqlError (Option String × List Tok) :=
  if startsWithKw "ORDER" ts then do
    let ts1 ← expectKw "BY" ts.tail
    let (c, ts2) ← expectName ts1
    if startsWithKw "ASC" ts2 then .ok (some c, ts2.tail) else .ok (some c, ts2)
  else .ok (none, ts)

/-- Parses one expression. -/
def parseExpr (n : Nat) : List Tok → Except SqlError (Expr × Nat × List Tok)
  | [] => .error (syntaxError [])
  | t :: ts =>
    match exprOfTok n t with
    | some (e, m) => .ok (e, m, ts)
    | none => .error (syntaxError (t :: ts))

/-- Parses `[LIMIT expr [OFFSET expr]]`. -/
def parseLimitOpt (n : Nat) (ts : List Tok) :
    Except SqlError (Option Expr × Option Expr × Nat × List Tok) :=
  if startsWithKw "LIMIT" ts then do
    let (l, n1, ts1) ← parseExpr n ts.tail
    if startsWithKw "OFFSET" ts1 then do
      let (o, n2, ts2) ← parseExpr n1 ts1.tail
      .ok (some l, some o, n2, ts2)
    else .ok (some l, none, n1, ts1)
  else .ok (none, none, n, ts)

/-- Parses `[ON CONFLICT (name) DO UPDATE SET setlist]`. -/
def parseUpsertOpt (n : Nat) (ts : List Tok) :
    Except SqlError (Option Upsert × Nat × List Tok) :=
  if startsWithKw "ON" ts then do
    let ts1 ← expectKw "CONFLICT" ts.tail
    let ts2 ← expectTok .lparen ts1
    let (c, ts3) ← expectName ts2
    let ts4 ← expectTok .rparen ts3
    let ts5 ← expectKw "DO" ts4
    let ts6 ← expectKw "UPDATE" ts5
    let ts7 ← expectKw "SET" ts6
    let (sets, m, rest) ← parseSetList n ts7
    .ok (some ⟨c, sets⟩, m, rest)
  else .ok (none, n, ts)

/-- Body of `CREATE TABLE name ( column-defs )`.  SQLite looks the name up as
soon as it has read it: when the table is there (`hasEmails`) it stops with
"table ... already exists" before it reads the column definitions. -/
def parseCreate (hasEmails : Bool) (ts : List Tok) : Except SqlError Stmt := do
  let ts1 ← expectKw "TABLE" ts
  let (t, ts2) ← expectName ts1
  let ts3 ← expectTok .lparen ts2
  if isKw t "EMAILS" && hasEmails then .error ⟨1, 1, "table " ++ t ++ " already exists"⟩
  else do
    let (cols, rest) ← parseColDefs .expectName [] ts3
    parseEnd (Stmt.createTable t cols) rest

/-- Body of `INSERT INTO name ( columns ) VALUES ( exprs ) [upsert]`. -/
def parseInsert (ts : List Tok) : Except SqlError Stmt := do
  let ts1 ← expectKw "INTO" ts
  let (t, ts2) ← expectName ts1
  let ts3 ← expectTok .lparen ts2
  let (cols, ts4) ← parseNameList ts3
  let ts5 ← expectTok .rparen ts4
  let ts6 ← expectKw "VALUES" ts5
  let ts7 ← expectTok .lparen ts6
  let (vals, n, ts8) ← parseExprList 0 ts7
  let ts9 ← expectTok .rparen ts8
  let (up, _, rest) ← parseUpsertOpt n ts9
  parseEnd (Stmt.insert t cols vals up) rest

/-- Body of `SELECT columns FROM name [WHERE] [ORDER BY] [LIMIT [OFFSET]]`. -/
def parseSelect (ts : List Tok) : Except SqlError Stmt := do
  let (cols, ts1) ← parseNameList ts
  let ts2 ← expectKw "FROM" ts1
  let (t, ts3) ← expectName ts2
  let (c, n, ts4) ← parseWhereOpt 0 ts3
  let (o, ts5) ← parseOrderOpt ts4
  let (l, off, _, rest) ← parseLimitOpt n ts5
  parseEnd (Stmt.select cols t c o l off) rest

/-- Body of `UPDATE name SET setlist [WHERE]`. -/
def parseUpdate (ts : List Tok) : Except SqlError Stmt := do
  let (t, ts1) ← expectName ts
  let ts2 ← expectKw "SET" ts1
  let (sets, n, ts3) ← parseSetList 0 ts2
  let (c, _, rest) ← parseWhereOpt n ts3
  parseEnd (Stmt.update t sets c) rest

/-- Parses one statement; `hasEmails` tells whether table `emails` exists. -/
def parseStmt (hasEmails : Bool) : List Tok → Except SqlError Stmt
  | .word w :: ts =>
    if isKw w "CREATE" then parseCreate hasEmails ts
    else if isKw w "INSERT" then parseInsert ts
    else if isKw w "SELECT" then parseSelect ts
    else if isKw w "UPDATE" then parseUpdate ts
    else .error (syntaxError (.word w :: ts))
  | ts => .error (syntaxError ts)

/-- Compiles SQL text (sqlite3_prepare); `hasEmails` tells whether table
`emails` exists. -/
def prepare (hasEmails : Bool) (sql : String) : Except SqlError Stmt :=
  parseStmt hasEmails (tokenize sql)

/-! ## Stored data and statement execution -/

/-- Values bound to parameters and returned in result rows. -/
inductive Value where
  | null
  | int (n : Int)
  | text (s : String)
  deriving DecidableEq, Repr

/-- One row of table `emails` (schema: `id INTEGER PRIMARY KEY, email TEXT UNIQUE,
confirmed_at INTEGER, opt_out INTEGER`); `opt_out` holds 0 or 1. -/
structure Row where
  id : Int
  email : String
  confirmed_at : Int
  opt_out : Bool
  deriving DecidableEq, Repr

/-- The database behind the connection handle: `none` when it has no table
`emails`, otherwise the rows of that table. -/
abbrev DB := Option (List Row)

/-- The columns of `emails`. -/
inductive Col where
  | id
  | email
  | confirmed_at
  | opt_out
  deriving DecidableEq, Repr

/-- Resolves a column name (names are matched without regard to case). -/
def colOf (s : String) : Option Col :=
  if isKw s "ID" then some .id
  else if isKw s "EMAIL" then some .email
  else if isKw s "CONFIRMED_AT" then some .confirmed_at
  else if isKw s "OPT_OUT" then some .opt_out
  else none

/-- Value of a column in a row. -/
def Row.get (r : Row) : Col → Value
  | .id => .int r.id
  | .email => .text r.email
  | .confirmed_at => .int r.confirmed_at
  | .opt_out => .int (if r.opt_out then 1 else 0)

/-- SQLITE_ERROR: unknown table. -/
def noSuchTable (t : String) : SqlError := ⟨1, 1, "no such table: " ++ t⟩

/-- SQLITE_ERROR: unknown column. -/
def noSuchColumn (c : String) : SqlError := ⟨1, 1, "no such column: " ++ c⟩

/-- SQLITE_CONSTRAINT_UNIQUE on `emails.email`. -/
def uniqueEmail : SqlError := ⟨19, 2067, "UNIQUE constraint failed: emails.email"⟩

/-- SQLITE_CONSTRAINT_PRIMARYKEY on `emails.id`. -/
def uniqueId : SqlError := ⟨19, 1555, "UNIQUE constraint failed: emails.id"⟩

/-- SQLITE_MISMATCH; also raised for values the typed row cannot hold. -/
def mismatch : SqlError := ⟨20, 20, "datatype mismatch"⟩

/-- Evaluates an expression where no row is in scope; a bare `true` / `false`
is the integer 1 / 0, an unbound parameter is NULL. -/
def evalConst (args : List Value) : Expr → Except SqlError Value
  | .param i => .ok (args.getD i .null)
  | .int n => .ok (.int n)
  | .name s =>
    if isKw s "TRUE" then .ok (.int 1)
    else if isKw s "FALSE" then .ok (.int 0)
    else .error (noSuchColumn s)

/-- Evaluates an expression against a row: a name is a column of the row if
there is one of that name. -/
def evalExpr (args : List Value) (r : Row) : Expr → Except SqlError Value
  | .name s =>
    match colOf s with
    | some c => .ok (r.get c)
    | none => evalConst args (.name s)
  | e => evalConst args e

/-- Evaluates the optional `expr = expr` condition on a row (no condition: true). -/
def evalCond (args : List Value) (r : Row) : Option (Expr × Expr) → Except SqlError Bool
  | none => .ok true
  | some (l, e) =>
    match evalExpr args r l, evalExpr args r e with
    | .ok a, .ok b => .ok (a != .null && a == b)
    | .error err, _ => .error err
    | _, .error err => .error err

/-- Stores a value in a column of an existing row.  The key columns `id` and
`email` are not assignable in this fragment. -/
def Row.set (r : Row) (c : Col) (v : Value) : Except SqlError Row :=
  match c, v with
  | .confirmed_at, .int n => .ok { r with confirmed_at := n }
  | .opt_out, .int 0 => .ok { r with opt_out := false }
  | .opt_out, .int 1 => .ok { r with opt_out := true }
  | _, _ => .error mismatch

/-- Applies the assignments of a SET list to a row, left to right; the
right-hand sides see the row as it was. -/
def applySets (args : List Value) (old : Row) : List (String × Expr) → Row → Except SqlError Row
  | [], r => .ok r
  | (c, e) :: rest, r =>
    match colOf c with
    | none => .error (noSuchColumn c)
    | some col =>
      match evalExpr args old e with
      | .error err => .error err
      | .ok v =>
        match r.set col v with
        | .error err => .error err
        | .ok r' => applySets args old rest r'

/-- Updates every row that satisfies the condition. -/
def updateRows (args : List Value) (sets : List (String × Expr)) (cond : Option (Expr × Expr)) :
    List Row → Except SqlError (List Row)
  | [] => .ok []
  | r :: rs =>
    match evalCond args r cond with
    | .error err => .error err
    | .ok hit =>
      match (if hit then applySets args r sets r else .ok r) with
      | .error err => .error err
      | .ok r' =>
        match updateRows args sets cond rs with
        | .error err => .error err
        | .ok rs' => .ok (r' :: rs')

/-- Column values supplied by an INSERT. -/
structure NewRow where
  id : Option Int
  email : Option String
  confirmed_at : Option Int
  opt_out : Option Bool
  deriving DecidableEq, Repr

/-- Records the value an INSERT gives for a column. -/
def NewRow.set (d : NewRow) (c : Col) (v : Value) : Except SqlError NewRow :=
  match c, v with
  | .id, .int n => .ok { d with id := some n }
  | .email, .text s => .ok { d with email := some s }
  | .confirmed_at, .int n => .ok { d with confirmed_at := some n }
  | .opt_out, .int 0 => .ok { d with opt_out := some false }
  | .opt_out, .int 1 => .ok { d with opt_out := some true }
  | _, _ => .error mismatch

/-- Pairs the column list of an INSERT with its evaluated values. -/
def fillNewRow (args : List Value) : List String → List Expr → NewRow → Except SqlError NewRow
  | [], [], d => .ok d
  | c :: cs, e :: es, d =>
    match colOf c with
    | none => .error ⟨1, 1, "table emails has no column named " ++ c⟩
    | some col =>
      match evalConst args e with
      | .error err => .error err
      | .ok v =>
        match d.set col v with
        | .error err => .error err
        | .ok d' => fillNewRow args cs es d'
  | cs, es, _ =>
    .error ⟨1, 1, toString es.length ++ " values for " ++ toString cs.length ++ " columns"⟩

/-- Largest rowid in the table, if the table has a row. -/
def maxRowid : List Row → Option Int
  | [] => none
  | r :: rs =>
    match maxRowid rs with
    | none => some r.id
    | some m => some (max r.id m)

/-- SQLITE_FULL. -/
def sqliteFull : SqlError := ⟨13, 13, "database or disk is full"⟩

/-- The largest rowid, 2^63 - 1. -/
def maxRowidValue : Int := 2 ^ 63 - 1

/-- The candidate rowid SQLite makes of a random 64-bit value: the value masked
to 62 bits, plus one. -/
def candidateRowid (raw : Int) : Int :=
  raw % 2 ^ 62 + 1

/-- The random search for a rowid: of at most 100 candidates, made of the
successive values `draws 0`, `draws 1`, ... that the random generator yields,
the first one no row uses; `none` when all 100 are in use. -/
def searchRowid (draws : Nat → Int) (rows : List Row) : Option Int :=
  ((List.range 100).map (fun i => candidateRowid (draws i))).find?
    (fun v => !rows.any (fun r => r.id == v))

/-- The rowid given to a row inserted without one: 1 in an empty table; one
more than the largest rowid in use while that is below 2^63 - 1; otherwise the
result of the random search, `none` when the search gives up (SQLITE_FULL). -/
def nextRowid (draws : Nat → Int) (rows : List Row) : Option Int :=
  match maxRowid rows with
  | none => some 1
  | some m => if m < maxRowidValue then some (m + 1) else searchRowid draws rows

/-- The complete row an INSERT adds; a column left without a value would be
NULL, which the typed row does not hold.  A row given no `id` gets the next
rowid. -/
def NewRow.toRow (d : NewRow) (draws : Nat → Int) (rows : List Row) : Except SqlError Row :=
  match d.email, d.confirmed_at, d.opt_out with
  | some e, some t, some o =>
    match d.id with
    | some id => .ok ⟨id, e, t, o⟩
    | none =>
      match nextRowid draws rows with
      | some id => .ok ⟨id, e, t, o⟩
      | none => .error sqliteFull
  | _, _, _ => .error mismatch

/-- Applies the DO UPDATE of an upsert to the rows whose email collides. -/
def upsertRows (args : List Value) (email : String) (sets : List (String × Expr)) :
    List Row → Except SqlError (List Row)
  | [] => .ok []
  | r :: rs =>
    match (if r.email = email then applySets args r sets r else .ok r) with
    | .error err => .error err
    | .ok r' =>
      match upsertRows args email sets rs with
      | .error err => .error err
      | .ok rs' => .ok (r' :: rs')

/-- Executes `INSERT INTO emails (...) VALUES (...) [ON CONFLICT ...]`. -/
def execInsert (draws : Nat → Int) (args : List Value) (cols : List String) (vals : List Expr)
    (upsert : Option Upsert) (rows : List Row) : Except SqlError (List Row) :=
  match fillNewRow args cols vals ⟨none, none, none, none⟩ with
  | .error err => .error err
  | .ok d =>
    match d.toRow draws rows with
    | .error err => .error err
    | .ok r =>
      if rows.any (fun x => x.id == r.id) then .error uniqueId
      else if rows.any (fun x => x.email == r.email) then
        match upsert with
        | none => .error uniqueEmail
        | some u =>
          if colOf u.target = some .email then upsertRows args r.email u.sets rows
          else .error uniqueEmail
      else .ok (rows ++ [r])

/-- Keeps the rows that satisfy the condition. -/
def filterRows (args : List Value) (cond : Option (Expr × Expr)) :
    List Row → Except SqlError (List Row)
  | [] => .ok []
  | r :: rs =>
    match evalCond args r cond with
    | .error err => .error err
    | .ok hit =>
      match filterRows args cond rs with
      | .error err => .error err
      | .ok rs' => .ok (if hit then r :: rs' else rs')

/-- Resolves the result columns of a SELECT. -/
def resolveCols : List String → Except SqlError (List Col)
  | [] => .ok []
  | c :: cs =>
    match colOf c with
    | none => .error (noSuchColumn c)
    | some col =>
      match resolveCols cs with
      | .error err => .error err
      | .ok cols => .ok (col :: cols)

/-- Rows in ascending order of `id`. -/
def orderById (rows : List Row) : List Row :=
  rows.insertionSort (fun a b => a.id ≤ b.id)

/-- Applies `ORDER BY`; only ordering by `id` is part of the fragment. -/
def orderRows (orderBy : Option String) (rows : List Row) : Except SqlError (List Row) :=
  match orderBy with
  | none => .ok rows
  | some c => if colOf c = some .id then .ok (orderById rows) else .error (noSuchColumn c)

/-- Evaluates a LIMIT or OFFSET operand to an integer. -/
def evalCount (args : List Value) : Option Expr → Except SqlError (Option Int)
  | none => .ok none
  | some e =>
    match evalConst args e with
    | .ok (.int n) => .ok (some n)
    | .ok _ => .error mismatch
    | .error err => .error err

/-- Applies `LIMIT l OFFSET o`: a negative offset counts as 0, a negative limit
as no limit. -/
def limitRows (limit offset : Option Int) (rows : List Row) : List Row :=
  let skipped := rows.drop (offset.getD 0).toNat
  match limit with
  | none => skipped
  | some l => if l < 0 then skipped else skipped.take l.toNat

/-- Executes a SELECT on the rows of `emails`. -/
def execSelect (args : List Value) (cols : List String) (cond : Option (Expr × Expr))
    (orderBy : Option String) (limit offset : Option Expr) (rows : List Row) :
    Except SqlError (List (List Value)) := do
  let cs ← resolveCols cols
  let hits ← filterRows args cond rows
  let sorted ← orderRows orderBy hits
  let l ← evalCount args limit
  let o ← evalCount args offset
  .ok ((limitRows l o sorted).map (fun r => cs.map r.get))

/-- Executes a prepared statement: the result rows (empty unless the statement
is a SELECT) and the database afterwards.  A failing statement leaves the
database as it was.  Only the table `emails` is tracked.  `draws` are the
values the random generator yields should a rowid be searched at random. -/
def execStmt (draws : Nat → Int) (args : List Value) (db : DB) :
    Stmt → Except SqlError (List (List Value)) × DB
  | .createTable t _ =>
    if isKw t "EMAILS" then
      match db with
      | some rows => (.error ⟨1, 1, "table " ++ t ++ " already exists"⟩, some rows)
      | none => (.ok [], some [])
    else (.ok [], db)
  | .insert t cols vals upsert =>
    match (if isKw t "EMAILS" then db else none) with
    | none => (.error (noSuchTable t), db)
    | some rows =>
      match execInsert draws args cols vals upsert rows with
      | .error err => (.error err, db)
      | .ok rows' => (.ok [], some rows')
  | .update t sets cond =>
    match (if isKw t "EMAILS" then db else none) with
    | none => (.error (noSuchTable t), db)
    | some rows =>
      match updateRows args sets cond rows with
      | .error err => (.error err, db)
      | .ok rows' => (.ok [], some rows')
  | .select cols t cond orderBy limit offset =>
    match (if isKw t "EMAILS" then db else none) with
    | none => (.error (noSuchTable t), db)
    | some rows =>
      match execSelect args cols cond orderBy limit offset rows with
      | .error err => (.error err, db)
      | .ok out => (.ok out, db)

/-- Prepares and runs SQL text with the given parameter values. -/
def run (draws : Nat → Int) (db : DB) (sql : String) (args : List Value) :
    Except SqlError (List (List Value)) × DB :=
  match prepare db.isSome sql with
  | .error err => (.error err, db)
  | .ok stmt => execStmt draws args db stmt

end sqlite

/-! ## Package `maildatabase` (src/maildatabase/mdb.go) -/

namespace maildatabase

open sqlite

/-- Go `time.Time`, as seconds since the Unix epoch and nanoseconds within the second. -/
structure Time where
  sec : Int
  nsec : Int
  deriving DecidableEq, Repr

/-- Go `(t Time).Unix()`. -/
def Time.Unix (t : Time) : Int := t.sec

/-- Go `time.Unix(sec, nsec)` for `0 ≤ nsec < 10^9`. -/
def timeUnix (sec nsec : Int) : Time := ⟨sec, nsec⟩

/-- Email record struct in the database; `ConfirmedAt` is a `*time.Time`,
`none` being the nil pointer. -/
structure EmailEntry where
  Id : Int
  Email : String
  ConfirmedAt : Option Time
  OptOut : Bool
  deriving DecidableEq, Repr

/-- Go `error` values: a `sqlite3.Error` or any other error. -/
inductive GoError where
  | sqlite (e : SqlError)
  | other (msg : String)
  deriving DecidableEq, Repr

/-- The `Error()` method. -/
def GoError.Error : GoError → String
  | .sqlite e => e.msg
  | .other m => m

/-- How a Go call ends: it returns a value, it panics, or the runtime ends the
process with a fatal error. -/
inductive Outcome (α : Type) where
  | ret (a : α)
  | panic (msg : String)
  | fatal (msg : String)
  deriving DecidableEq, Repr

/-- A call that did not return: a panic, or a fatal error of the runtime. -/
inductive Halt where
  | panic (msg : String)
  | fatal (msg : String)
  deriving DecidableEq, Repr

/-- What the running process supplies during a call: the successive values
SQLite's random generator yields should it search a rowid at random, and the
number of bytes the Go runtime can obtain for an allocation. -/
structure Env where
  rowidDraws : Nat → Int
  memory : Nat

/-- An environment whose random generator yields 0 each time and that has 2^30
bytes to allocate. -/
def plainEnv : Env := ⟨fun _ => 0, 2 ^ 30⟩

/-- Go `db.Exec(sql, args...)` with the result discarded: the error, if any,
and the database afterwards. -/
def dbExec (env : Env) (db : DB) (sql : String) (args : List Value) : Option GoError × DB :=
  match run env.rowidDraws db sql args with
  | (.error e, db') => (some (.sqlite e), db')
  | (.ok _, db') => (none, db')

/-- Go `db.Query(sql, args...)`: the result rows or the error, and the
database afterwards.  Text that fails to prepare returns the error at once;
the only text other than a SELECT the program passes here is that of
`UpdateEmail`. -/
def dbQuery (env : Env) (db : DB) (sql : String) (args : List Value) :
    Except GoError (List (List Value)) × DB :=
  match run env.rowidDraws db sql args with
  | (.error e, db') => (.error (.sqlite e), db')
  | (.ok rows, db') => (.ok rows, db')

/-- A Go `bool` bound as a statement parameter. -/
def boolValue (b : Bool) : Value := .int (if b then 1 else 0)

/-- SQL text of `TryCreateDatabase` (mdb.go:20-27). -/
def createTableSql : String :=
  "\n\t\tCREATE TABLE emails (\n\t\t\tid\t\t\tINTEGER PRIMARY KEY,\n\t\t\temail\t\tTEXT UNIQUE,\n\t\t\tconfirmed_at INTEGER,\n\t\t\topt_out INTEGER, \n\t\t);\n\t"

/-- SQL text of `CreateEmail` (mdb.go:67-69). -/
def createEmailSql : String :=
  "INSERT INTO\n\t\temails(email,confirmed_at, opt_out)\n\t\tVALUES(?, 0, false)"

/-- SQL text of `GetEmail` (mdb.go:81-85). -/
def getEmailSql : String :=
  "\n\t\t\tSELECT id, email, confirmed_at, opt_out\n\t\t\tFROM emails\n\t\t\tWHERE email = ?\n\t\t"

/-- SQL text of `UpdateEmail` (mdb.go:106-113). -/
def updateEmailSql : String :=
  "\n\t\t\tINSERT INTO\n\t\t\temails(email, confirmed_at, opt_out)\n\t\t\tVALUES(?,?,?)\n\t\t\tON CONFLICT(email) DO UPDATE SET\n\t\t\t\tconfirmed_at=?\n\t\t\t\topt_out=?\n\n\t\t"

/-- SQL text of `DeleteEmail` (mdb.go:126-129). -/
def deleteEmailSql : String :=
  "\tUPDATE emails\n\t\t\tSET opt_out=true\n\t\t\tWHERE email=?\n\t\t"

/-- SQL text of `GetEmailBatch` (mdb.go:149-155). -/
def getEmailBatchSql : String :=
  "\n\t\t\tSELECT id, email, confirmed_at, opt_out\n\t\t\tFROM emails\n\t\t\tWHERE opt_out=false\n\t\t\tORDER BY id ASC\n\t\t\tLIMIT ? OFFSET ?\n\n\t\t"

/-- How `TryCreateDatabase` ends: it returns, or `log.Fatal` ends the process. -/
inductive Startup where
  | returns
  | fatal (msg : String)
  deriving DecidableEq, Repr

/-- The error handling of `TryCreateDatabase` (mdb.go:28-40) on the error
value `db.Exec` gave. -/
def TryCreateDatabase.onError : Option GoError → Startup
  | none => .returns
  | some (.sqlite sqlError) => if sqlError.code ≠ 1 then .fatal sqlError.msg else .returns
  | some (.other msg) => .fatal msg

/-- Go `TryCreateDatabase` (mdb.go:19-41). -/
def TryCreateDatabase (env : Env) (db : DB) : Startup × DB :=
  match dbExec env db createTableSql [] with
  | (err, db') => (TryCreateDatabase.onError err, db')

/-- Go `row.Scan(&id, &email, &confirmedAt, &optOut)` into an `int`, a `string`,
an `int64` and a `bool`; a row of any other shape is reported as a scan error. -/
def scanRow : List Value → Except GoError (Int × String × Int × Bool)
  | [.int id, .text email, .int confirmedAt, .int 0] => .ok (id, email, confirmedAt, false)
  | [.int id, .text email, .int confirmedAt, .int 1] => .ok (id, email, confirmedAt, true)
  | _ => .error (.other "sql: Scan error")

/-- Go `emailEntryFromRow` (mdb.go:43-63). -/
def emailEntryFromRow (row : List Value) : Except GoError EmailEntry :=
  match scanRow row with
  | .error err => .error err
  | .ok (id, email, confirmedAt, optOut) =>
    let time := timeUnix confirmedAt 0
    .ok { Id := id, Email := email, ConfirmedAt := some time, OptOut := optOut }

/-- Go `CreateEmail` (mdb.go:65-76). -/
def CreateEmail (env : Env) (db : DB) (email : String) : Option GoError × DB :=
  match dbExec env db createEmailSql [.text email] with
  | (some err, db') => (some err, db')
  | (none, db') => (none, db')

/-- Go `GetEmail` (mdb.go:79-99): the first result row, if there is one. -/
def GetEmail (env : Env) (db : DB) (email : String) :
    Except GoError (Option EmailEntry) × DB :=
  match dbQuery env db getEmailSql [.text email] with
  | (.error err, db') => (.error err, db')
  | (.ok rows, db') =>
    match rows with
    | row :: _ =>
      match emailEntryFromRow row with
      | .ok entry => (.ok (some entry), db')
      | .error err => (.error err, db')
    | [] => (.ok none, db')

/-- Go `UpdateEmail` (mdb.go:101-122).  `entry.ConfirmedAt.Unix()` dereferences
the pointer, which panics when it is nil. -/
def UpdateEmail (env : Env) (db : DB) (entry : EmailEntry) : Outcome (Option GoError) × DB :=
  match entry.ConfirmedAt with
  | none => (.panic "runtime error: invalid memory address or nil pointer dereference", db)
  | some confirmedAt =>
    let time := confirmedAt.Unix
    match dbQuery env db updateEmailSql
        [.text entry.Email, .int time, boolValue entry.OptOut, .int time, boolValue entry.OptOut] with
    | (.error err, db') => (.ret (some err), db')
    | (.ok _, db') => (.ret none, db')

/-- Go `DeleteEmail` (mdb.go:124-138). -/
def DeleteEmail (env : Env) (db : DB) (email : String) : Option GoError × DB :=
  match dbExec env db deleteEmailSql [.text email] with
  | (some err, db') => (some err, db')
  | (none, db') => (none, db')

/-- Go `GetEmailBatchQueryParams`; both fields are Go `int` (64 bits). -/
structure GetEmailBatchQueryParams where
  Page : Int
  Count : Int
  deriving DecidableEq, Repr

/-- Two's-complement wrap-around of 64-bit signed arithmetic. -/
def wrapInt64 (n : Int) : Int :=
  (n + 2 ^ 63) % 2 ^ 64 - 2 ^ 63

/-- Size in bytes of an `EmailEntry` on a 64-bit platform (int 8, string 16,
pointer 8, bool 1, padded to 40). -/
def sizeofEmailEntry : Int := 40

/-- The Go runtime's `maxAlloc` on 64-bit platforms with a 48-bit address space. -/
def maxAlloc : Int := 2 ^ 48

/-- Go `make([]EmailEntry, 0, cap)`: it panics (makeslice: cap out of range) when
the capacity is negative or its byte size exceeds `maxAlloc`; it ends the
process (fatal error: runtime: out of memory) when the byte size is more than
the runtime can obtain; otherwise it returns the slice (`none`). -/
def makeslice (memory : Nat) (cap : Int) : Option Halt :=
  if cap < 0 ∨ maxAlloc < sizeofEmailEntry * cap then
    some (.panic "runtime error: makeslice: cap out of range")
  else if (memory : Int) < sizeofEmailEntry * cap then
    some (.fatal "fatal error: runtime: out of memory")
  else none

/-- The `for rows.Next()` loop of `GetEmailBatch` (mdb.go:168-175). -/
def scanRows : List (List Value) → List EmailEntry → Except GoError (List EmailEntry)
  | [], emails => .ok emails
  | row :: rows, emails =>
    match emailEntryFromRow row with
    | .error err => .error err
    | .ok email => scanRows rows (emails ++ [email])

/-- Go `GetEmailBatch` (mdb.go:145-178). -/
def GetEmailBatch (env : Env) (db : DB) (params : GetEmailBatchQueryParams) :
    Outcome (Except GoError (List EmailEntry)) × DB :=
  match dbQuery env db getEmailBatchSql
      [.int params.Count, .int (wrapInt64 (wrapInt64 (params.Page - 1) * params.Count))] with
  | (.error err, db') => (.ret (.error err), db')
  | (.ok rows, db') =>
    match makeslice env.memory params.Count with
    | some (.panic msg) => (.panic msg, db')
    | some (.fatal msg) => (.fatal msg, db')
    | none => (.ret (scanRows rows []), db')

/-- The entry `emailEntryFromRow` builds from a stored row. -/
def entryOfRow (r : Row) : EmailEntry :=
  { Id := r.id, Email := r.email, ConfirmedAt := some (timeUnix r.confirmed_at 0), OptOut := r.opt_out }

/-- The row `CreateEmail` adds for `email`, given the rowid SQLite assigns. -/
def createdRow (id : Int) (email : String) : Row :=
  ⟨id, email, 0, false⟩

/-- A row after a soft delete of `email`: `opt_out` forced to true on a match. -/
def optOutIf (email : String) (r : Row) : Row :=
  if r.email = email then { r with opt_out := true } else r

/-- The page as the specification words it: the records with `optedOut = false`,
in ascending order of `id`, from offset `(page - 1) * count`, at most `count`
of them. -/
def GetPageSpec (rows : List Row) (page count : Int) : List EmailEntry :=
  ((((rows.filter (fun r => r.opt_out = false)).insertionSort (fun a b => a.id ≤ b.id)).drop
    ((page - 1) * count).toNat).take count.toNat).map entryOfRow

end maildatabase

/-! ## Package `jsonapi` (src/jsonapi/jsonapi.go) -/

namespace jsonapi

open sqlite maildatabase

/-- A JSON scalar inside an object; `raw` is text produced by a type's own
`MarshalJSON` method. -/
inductive JsonField where
  | null
  | bool (b : Bool)
  | num (n : Int)
  | str (s : String)
  | raw (text : String)
  deriving DecidableEq, Repr

/-- JSON documents the handlers write: `null`, an object, or an array of objects. -/
inductive Json where
  | null
  | obj (fields : List (String × JsonField))
  | arr (items : List (List (String × JsonField)))
  deriving DecidableEq, Repr

/-- What has been written to an `http.ResponseWriter`: the header map, the
status code once it is fixed, and the body chunks. -/
structure ResponseWriter where
  header : List (String × String)
  status : Option Nat
  body : List Json
  deriving DecidableEq, Repr

/-- Go `w.Header().Set(key, value)`; changes after the status line is out are
not sent. -/
def ResponseWriter.SetHeader (w : ResponseWriter) (key value : String) : ResponseWriter :=
  if w.status.isSome then w
  else { w with header := w.header.filter (fun kv => kv.1 != key) ++ [(key, value)] }

/-- Go `w.WriteHeader(code)`; a second call is ignored. -/
def ResponseWriter.WriteHeader (w : ResponseWriter) (code : Nat) : ResponseWriter :=
  if w.status.isSome then w else { w with status := some code }

/-- Go `w.Write(data)`; the first write fixes the status at 200 when
`WriteHeader` was not called. -/
def ResponseWriter.Write (w : ResponseWriter) (data : Json) : ResponseWriter :=
  { w with status := some (w.status.getD 200), body := w.body ++ [data] }

/-- An incoming request: method and body. -/
structure Request where
  Method : String
  Body : String
  deriving DecidableEq, Repr

/-- Behaviour of package `encoding/json` that the handlers rely on, taken as
given: decoding a body into a target value (a failed decode leaves the target
as far as it got), and the `MarshalJSON` method of `time.Time`. -/
structure JsonCodec where
  unmarshalEntry : String → EmailEntry → EmailEntry
  unmarshalParams : String → GetEmailBatchQueryParams → GetEmailBatchQueryParams
  marshalTime : Time → Except String String

/-- Storage calls a handler makes, in order. -/
inductive StorageCall where
  | CreateEmail (email : String)
  | GetEmail (email : String)
  | UpdateEmail (entry : EmailEntry)
  | DeleteEmail (email : String)
  | GetEmailBatch (params : GetEmailBatchQueryParams)
  deriving DecidableEq, Repr

/-- State threaded through a handler: the response writer, the database, the
storage calls made so far, and the panic or fatal error that ended the
handler, if any. -/
structure Handled where
  w : ResponseWriter
  db : DB
  calls : List StorageCall
  halted : Option Halt
  deriving DecidableEq, Repr

/-- Values handed to `returnJsonData` as `data`. -/
inductive Payload where
  | entry (e : Option EmailEntry)
  | batch (es : List EmailEntry)
  | errorMessage (Err : String)
  deriving DecidableEq, Repr

/-- Go `setJsonHeader` (jsonapi.go:14-16). -/
def setJsonHeader (w : ResponseWriter) : ResponseWriter :=
  w.SetHeader "Content-Type" "application/json; charset=utf-8"

/-- Go `fromJson` (jsonapi.go:18-22): the target after `json.Unmarshal`, whose
error is dropped. -/
def fromJson {T : Type} (unmarshal : String → T → T) (body : String) (target : T) : T :=
  unmarshal body target

/-- JSON object of an `EmailEntry`. -/
def marshalEntry (codec : JsonCodec) (e : EmailEntry) :
    Except String (List (String × JsonField)) :=
  match e.ConfirmedAt with
  | none =>
    .ok [("Id", .num e.Id), ("Email", .str e.Email), ("ConfirmedAt", .null), ("OptOut", .bool e.OptOut)]
  | some t =>
    match codec.marshalTime t with
    | .error err => .error err
    | .ok text =>
      .ok [("Id", .num e.Id), ("Email", .str e.Email), ("ConfirmedAt", .raw text),
        ("OptOut", .bool e.OptOut)]

/-- JSON objects of a list of entries. -/
def marshalEntries (codec : JsonCodec) :
    List EmailEntry → Except String (List (List (String × JsonField)))
  | [] => .ok []
  | e :: es =>
    match marshalEntry codec e with
    | .error err => .error err
    | .ok o =>
      match marshalEntries codec es with
      | .error err => .error err
      | .ok os => .ok (o :: os)

/-- Go `json.Marshal(&data)` on the values the handlers produce. -/
def jsonMarshal (codec : JsonCodec) : Payload → Except String Json
  | .entry none => .ok .null
  | .entry (some e) =>
    match marshalEntry codec e with
    | .error err => .error err
    | .ok o => .ok (.obj o)
  | .batch es =>
    match marshalEntries codec es with
    | .error err => .error err
    | .ok os => .ok (.arr os)
  | .errorMessage m => .ok (.obj [("Err", .str m)])

/-- Go `json.Marshal(&serverError)` on an error value: the exported fields of
the dynamic type.  A `sqlite3.Error` has `Code`, `ExtendedCode` and
`SystemErrno` (its message is unexported); the other error types have no
exported field. -/
def marshalError : GoError → Except String Json
  | .sqlite e => .ok (.obj [("Code", .num e.code), ("ExtendedCode", .num e.extended),
      ("SystemErrno", .num 0)])
  | .other _ => .ok (.obj [])

/-- Go `returnJsonData` (jsonapi.go:24-49).  `withData` is the closure; it may
write to the response and use the database. -/
def returnJsonData (codec : JsonCodec) (st : Handled)
    (withData : Handled → Outcome (Except GoError Payload) × Handled) : Handled :=
  let st1 := { st with w := setJsonHeader st.w }
  match withData st1 with
  | (.panic msg, st2) => { st2 with halted := some (.panic msg) }
  | (.fatal msg, st2) => { st2 with halted := some (.fatal msg) }
  | (.ret (.error serverError), st2) =>
    let st3 := { st2 with w := st2.w.WriteHeader 500 }
    match marshalError serverError with
    | .error _ => st3
    | .ok serverErrorJson => { st3 with w := st3.w.Write serverErrorJson }
  | (.ret (.ok data), st2) =>
    match jsonMarshal codec data with
    | .error _ => { st2 with w := st2.w.WriteHeader 500 }
    | .ok dataJson => { st2 with w := st2.w.Write dataJson }

/-- Go `returnErr` (jsonapi.go:51-61). -/
def returnErr (codec : JsonCodec) (st : Handled) (err : GoError) (code : Nat) : Handled :=
  returnJsonData codec st (fun s =>
    let errorMessage := Payload.errorMessage err.Error
    (.ret (.ok errorMessage), { s with w := s.w.WriteHeader code }))

/-- The closure `return maildatabase.GetEmail(db, entry.Email)` shared by the
create, get, update and delete handlers. -/
def withGetEmail (env : Env) (email : String) (s : Handled) :
    Outcome (Except GoError Payload) × Handled :=
  match maildatabase.GetEmail env s.db email with
  | (.error err, db') => (.ret (.error err), { s with db := db', calls := s.calls ++ [.GetEmail email] })
  | (.ok e, db') => (.ret (.ok (.entry e)), { s with db := db', calls := s.calls ++ [.GetEmail email] })

/-- The zero `maildatabase.EmailEntry{}`. -/
def zeroEntry : EmailEntry := { Id := 0, Email := "", ConfirmedAt := none, OptOut := false }

/-- Go `CreateEmail` handler (jsonapi.go:63-82). -/
def CreateEmail (codec : JsonCodec) (env : Env) (db : DB) (w : ResponseWriter) (r : Request) :
    Handled :=
  if r.Method ≠ "POST" then ⟨w, db, [], none⟩
  else
    let entry := fromJson codec.unmarshalEntry r.Body zeroEntry
    match maildatabase.CreateEmail env db entry.Email with
    | (some err, db') => returnErr codec ⟨w, db', [.CreateEmail entry.Email], none⟩ err 400
    | (none, db') =>
      returnJsonData codec ⟨w, db', [.CreateEmail entry.Email], none⟩ (withGetEmail env entry.Email)

/-- Go `GetEmail` handler (jsonapi.go:84-98). -/
def GetEmail (codec : JsonCodec) (env : Env) (db : DB) (w : ResponseWriter) (r : Request) :
    Handled :=
  if r.Method ≠ "GET" then ⟨w, db, [], none⟩
  else
    let entry := fromJson codec.unmarshalEntry r.Body zeroEntry
    returnJsonData codec ⟨w, db, [], none⟩ (withGetEmail env entry.Email)

/-- Go `UpdateEmail` handler (jsonapi.go:100-119). -/
def UpdateEmail (codec : JsonCodec) (env : Env) (db : DB) (w : ResponseWriter) (r : Request) :
    Handled :=
  if r.Method ≠ "PUT" then ⟨w, db, [], none⟩
  else
    let entry := fromJson codec.unmarshalEntry r.Body zeroEntry
    match maildatabase.UpdateEmail env db entry with
    | (.panic msg, db') => ⟨w, db', [.UpdateEmail entry], some (.panic msg)⟩
    | (.fatal msg, db') => ⟨w, db', [.UpdateEmail entry], some (.fatal msg)⟩
    | (.ret (some err), db') => returnErr codec ⟨w, db', [.UpdateEmail entry], none⟩ err 400
    | (.ret none, db') =>
      returnJsonData codec ⟨w, db', [.UpdateEmail entry], none⟩ (withGetEmail env entry.Email)

/-- Go `DeleteEmail` handler (jsonapi.go:121-140). -/
def DeleteEmail (codec : JsonCodec) (env : Env) (db : DB) (w : ResponseWriter) (r : Request) :
    Handled :=
  if r.Method ≠ "POST" then ⟨w, db, [], none⟩
  else
    let entry := fromJson codec.unmarshalEntry r.Body zeroEntry
    match maildatabase.DeleteEmail env db entry.Email with
    | (some err, db') => returnErr codec ⟨w, db', [.DeleteEmail entry.Email], none⟩ err 400
    | (none, db') =>
      returnJsonData codec ⟨w, db', [.DeleteEmail entry.Email], none⟩ (withGetEmail env entry.Email)

/-- The closure `return maildatabase.GetEmailBatch(db, queryOptions)`. -/
def withGetEmailBatch (env : Env) (queryOptions : GetEmailBatchQueryParams) (s : Handled) :
    Outcome (Except GoError Payload) × Handled :=
  match maildatabase.GetEmailBatch env s.db queryOptions with
  | (.panic msg, db') =>
    (.panic msg, { s with db := db', calls := s.calls ++ [.GetEmailBatch queryOptions] })
  | (.fatal msg, db') =>
    (.fatal msg, { s with db := db', calls := s.calls ++ [.GetEmailBatch queryOptions] })
  | (.ret (.error err), db') =>
    (.ret (.error err), { s with db := db', calls := s.calls ++ [.GetEmailBatch queryOptions] })
  | (.ret (.ok es), db') =>
    (.ret (.ok (.batch es)), { s with db := db', calls := s.calls ++ [.GetEmailBatch queryOptions] })

/-- Message of the validation error of the batch handler. -/
def batchValidationMessage : String := "page and Count fields are required and must be > 0"

/-- Go `GetEmailBatch` handler (jsonapi.go:142-161). -/
def GetEmailBatch (codec : JsonCodec) (env : Env) (db : DB) (w : ResponseWriter) (r : Request) :
    Handled :=
  if r.Method ≠ "GET" then ⟨w, db, [], none⟩
  else
    let queryOptions := fromJson codec.unmarshalParams r.Body ⟨0, 0⟩
    if queryOptions.Count ≤ 0 ∨ queryOptions.Page ≤ 0 then
      returnErr codec ⟨w, db, [], none⟩ (.other batchValidationMessage) 400
    else
      returnJsonData codec ⟨w, db, [], none⟩ (withGetEmailBatch env queryOptions)

/-- A response writer nothing has been written to. -/
def newResponseWriter : ResponseWriter := ⟨[], none, []⟩

/-- The header map after `setJsonHeader` on a new response writer. -/
def jsonHeader : List (String × String) := [("Content-Type", "application/json; charset=utf-8")]

/-- The error envelope: the JSON object with the one field `Err`. -/
def errEnvelope (message : String) : Json := .obj [("Err", .str message)]

/-- A codec for which every decode leaves the target untouched (as for an
empty or malformed body) and times are written as their epoch seconds. -/
def blankCodec : JsonCodec :=
  ⟨fun _ e => e, fun _ p => p, fun t => .ok (toString t.sec)⟩

/-- The database after a storage call made in environment `env`. -/
def StorageCall.run (env : Env) (db : DB) : StorageCall → DB
  | .CreateEmail email => (maildatabase.CreateEmail env db email).2
  | .GetEmail email => (maildatabase.GetEmail env db email).2
  | .UpdateEmail entry => (maildatabase.UpdateEmail env db entry).2
  | .DeleteEmail email => (maildatabase.DeleteEmail env db email).2
  | .GetEmailBatch params => (maildatabase.GetEmailBatch env db params).2

/-- The database after a sequence of storage calls, each with the environment
it runs in. -/
def runCalls (db : DB) (calls : List (Env × StorageCall)) : DB :=
  calls.foldl (fun d c => c.2.run c.1 d) db

end jsonapi

/-! ## Supporting lemmas: the statements the program sends, as run by the executor -/

namespace sqlite

theorem colOf_id : colOf "id" = some .id := by decide
theorem colOf_email : colOf "email" = some .email := by decide
theorem colOf_confirmed_at : colOf "confirmed_at" = some .confirmed_at := by decide
theorem colOf_opt_out : colOf "opt_out" = some .opt_out := by decide
theorem colOf_false : colOf "false" = none := by decide
theorem colOf_true : colOf "true" = none := by decide
theorem isKw_emails : isKw "emails" "EMAILS" = true := by decide
theorem isKw_false_TRUE : isKw "false" "TRUE" = false := by decide
theorem isKw_false_FALSE : isKw "false" "FALSE" = true := by decide
theorem isKw_true_TRUE : isKw "true" "TRUE" = true := by decide

theorem le_maxRowid (rows : List Row) (m : Int) (h : maxRowid rows = some m) :
    ∀ r ∈ rows, r.id ≤ m := by
  induction rows generalizing m with
  | nil => simp
  | cons a rs ih =>
    intro r hr
    simp only [maxRowid] at h
    cases hm : maxRowid rs with
    | none =>
      rw [hm] at h
      simp only [Option.some.injEq] at h
      cases rs with
      | nil =>
        simp only [List.mem_singleton] at hr
        subst hr; omega
      | cons b rs' =>
        simp only [maxRowid] at hm
        split at hm <;> simp at hm
    | some k =>
      rw [hm] at h
      simp only [Option.some.injEq] at h
      rcases List.mem_cons.1 hr with h1 | h1
      · subst h1; have := le_max_left r.id k; omega
      · have := ih k hm r h1; have := le_max_right a.id k; omega

/-- The rowid SQLite assigns is used by no row of the table. -/
theorem nextRowid_unused (draws : Nat → Int) (rows : List Row) (id : Int)
    (h : nextRowid draws rows = some id) : ∀ r ∈ rows, r.id ≠ id := by
  intro r hr
  unfold nextRowid at h
  cases hm : maxRowid rows with
  | none =>
    cases rows with
    | nil => simp at hr
    | cons b rs => simp only [maxRowid] at hm; split at hm <;> simp at hm
  | some m =>
    rw [hm] at h
    simp only at h
    have hle := le_maxRowid rows m hm r hr
    by_cases hlt : m < maxRowidValue
    · rw [if_pos hlt] at h
      simp only [Option.some.injEq] at h
      omega
    · rw [if_neg hlt] at h
      have hp := List.find?_some h
      simp only [Bool.not_eq_true', List.any_eq_false, beq_iff_eq] at hp
      exact hp r hr

end sqlite

namespace maildatabase
open sqlite

theorem prepare_createTableSql_new :
    prepare false createTableSql = .error ⟨1, 1, "near \")\": syntax error"⟩ := by rfl

theorem prepare_createTableSql_present :
    prepare true createTableSql = .error ⟨1, 1, "table emails already exists"⟩ := by rfl

theorem prepare_createEmailSql (b : Bool) :
    prepare b createEmailSql = .ok (Stmt.insert "emails" ["email", "confirmed_at", "opt_out"]
      [Expr.param 0, Expr.int 0, Expr.name "false"] none) := by
  cases b <;> rfl

theorem prepare_getEmailSql (b : Bool) :
    prepare b getEmailSql = .ok (Stmt.select ["id", "email", "confirmed_at", "opt_out"] "emails"
      (some (Expr.name "email", Expr.param 0)) none none none) := by
  cases b <;> rfl

theorem prepare_updateEmailSql (b : Bool) :
    prepare b updateEmailSql = .error ⟨1, 1, "near \"opt_out\": syntax error"⟩ := by
  cases b <;> rfl

theorem prepare_deleteEmailSql (b : Bool) :
    prepare b deleteEmailSql = .ok (Stmt.update "emails" [("opt_out", Expr.name "true")]
      (some (Expr.name "email", Expr.param 0))) := by
  cases b <;> rfl

theorem prepare_getEmailBatchSql (b : Bool) :
    prepare b getEmailBatchSql = .ok (Stmt.select ["id", "email", "confirmed_at", "opt_out"] "emails"
      (some (Expr.name "opt_out", Expr.name "false")) (some "id")
      (some (Expr.param 0)) (some (Expr.param 1))) := by
  cases b <;> rfl

theorem run_createEmail (draws : Nat → Int) (rows : List Row) (e : String) :
    run draws (some rows) createEmailSql [.text e] =
      match nextRowid draws rows with
      | none => (.error sqliteFull, some rows)
      | some id =>
        if rows.any (fun r => r.email == e) then (.error uniqueEmail, some rows)
        else (.ok [], some (rows ++ [⟨id, e, 0, false⟩])) := by
  simp only [run, prepare_createEmailSql, execStmt, isKw_emails, if_true, execInsert, fillNewRow,
    colOf_email, colOf_confirmed_at, colOf_opt_out, evalConst, List.getD_cons_zero,
    NewRow.set, isKw_false_TRUE, isKw_false_FALSE, NewRow.toRow]
  cases hn : nextRowid draws rows with
  | none => simp
  | some id =>
    have hid' : ¬ ∃ x ∈ rows, x.id = id := by
      rintro ⟨x, hx, hxe⟩
      exact nextRowid_unused draws rows id hn x hx hxe
    by_cases h : rows.any (fun x => x.email == e) = true
    · simp [h, hid']
    · simp only [Bool.not_eq_true] at h
      simp [h, hid']

theorem run_getEmail (draws : Nat → Int) (rows : List Row) (e : String) :
    run draws (some rows) getEmailSql [.text e] =
      (.ok ((rows.filter (fun r => r.email == e)).map
        (fun r => [.int r.id, .text r.email, .int r.confirmed_at, boolValue r.opt_out])), some rows) := by
  have hf : filterRows [.text e] (some (Expr.name "email", Expr.param 0)) rows =
      .ok (rows.filter (fun r => r.email == e)) := by
    induction rows with
    | nil => rfl
    | cons a rs ih =>
      simp only [filterRows, ih, evalCond, evalExpr, colOf_email, evalConst, Row.get,
        List.getD_cons_zero, List.filter_cons]
      by_cases h : a.email = e <;> simp [h]
  simp only [run, prepare_getEmailSql, execStmt, isKw_emails, if_true, execSelect, resolveCols,
    colOf_id, colOf_email, colOf_confirmed_at, colOf_opt_out, hf, orderRows, evalCount, limitRows]
  simp [Row.get, boolValue, bind, Except.bind]

theorem run_deleteEmail (draws : Nat → Int) (rows : List Row) (e : String) :
    run draws (some rows) deleteEmailSql [.text e] =
      (.ok [], some (rows.map (fun r => if r.email = e then { r with opt_out := true } else r))) := by
  have hu : updateRows [.text e] [("opt_out", Expr.name "true")]
      (some (Expr.name "email", Expr.param 0)) rows =
      .ok (rows.map (fun r => if r.email = e then { r with opt_out := true } else r)) := by
    induction rows with
    | nil => rfl
    | cons a rs ih =>
      simp only [updateRows, ih, evalCond, evalExpr, colOf_email, evalConst, Row.get,
        List.getD_cons_zero, List.map_cons, applySets, colOf_opt_out, colOf_true, isKw_true_TRUE,
        if_true, Row.set]
      by_cases h : a.email = e <;> simp [h, Row.set]
  simp only [run, prepare_deleteEmailSql, execStmt, isKw_emails, if_true, hu]

theorem run_getEmailBatch (draws : Nat → Int) (rows : List Row) (c o : Int) :
    run draws (some rows) getEmailBatchSql [.int c, .int o] =
      (.ok ((limitRows (some c) (some o) (orderById (rows.filter (fun r => !r.opt_out)))).map
        (fun r => [.int r.id, .text r.email, .int r.confirmed_at, boolValue r.opt_out])), some rows) := by
  have hf : filterRows [.int c, .int o] (some (Expr.name "opt_out", Expr.name "false")) rows =
      .ok (rows.filter (fun r => !r.opt_out)) := by
    induction rows with
    | nil => rfl
    | cons a rs ih =>
      simp only [filterRows, ih, evalCond, evalExpr, colOf_opt_out, colOf_false, evalConst, Row.get,
        isKw_false_TRUE, isKw_false_FALSE, List.filter_cons]
      cases h : a.opt_out <;> simp
  simp only [run, prepare_getEmailBatchSql, execStmt, isKw_emails, if_true, execSelect, resolveCols,
    colOf_id, colOf_email, colOf_confirmed_at, colOf_opt_out, hf, orderRows, evalCount, evalConst]
  simp [Row.get, boolValue, bind, Except.bind]

theorem run_no_table (draws : Nat → Int) (sql : String) (args : List Value) :
    sql = createEmailSql ∨ sql = getEmailSql ∨ sql = deleteEmailSql ∨ sql = getEmailBatchSql →
    run draws none sql args = (.error (noSuchTable "emails"), none) := by
  rintro (h | h | h | h) <;> subst h
  · simp only [run, prepare_createEmailSql, execStmt, isKw_emails, if_true]
  · simp only [run, prepare_getEmailSql, execStmt, isKw_emails, if_true]
  · simp only [run, prepare_deleteEmailSql, execStmt, isKw_emails, if_true]
  · simp only [run, prepare_getEmailBatchSql, execStmt, isKw_emails, if_true]

theorem run_updateEmail (draws : Nat → Int) (db : DB) (args : List Value) :
    run draws db updateEmailSql args = (.error ⟨1, 1, "near \"opt_out\": syntax error"⟩, db) := by
  simp only [run, prepare_updateEmailSql]

theorem run_createTable_new (draws : Nat → Int) (args : List Value) :
    run draws none createTableSql args = (.error ⟨1, 1, "near \")\": syntax error"⟩, none) := by
  simp only [run, Option.isSome_none, prepare_createTableSql_new]

theorem run_createTable_present (draws : Nat → Int) (rows : List Row) (args : List Value) :
    run draws (some rows) createTableSql args =
      (.error ⟨1, 1, "table emails already exists"⟩, some rows) := by
  simp only [run, Option.isSome_some, prepare_createTableSql_present]

theorem createEmail_rows (env : Env) (rows : List Row) (e : String) :
    CreateEmail env (some rows) e =
      match nextRowid env.rowidDraws rows with
      | none => (some (.sqlite sqliteFull), some rows)
      | some id =>
        if rows.any (fun r => r.email == e) then (some (.sqlite uniqueEmail), some rows)
        else (none, some (rows ++ [createdRow id e])) := by
  simp only [CreateEmail, dbExec, run_createEmail, createdRow]
  cases nextRowid env.rowidDraws rows with
  | none => rfl
  | some id =>
    by_cases h : rows.any (fun r => r.email == e) = true
    · simp only [h, if_true]
    · simp only [h, Bool.false_eq_true, if_false]

theorem emailEntryFromRow_row (r : Row) :
    emailEntryFromRow [.int r.id, .text r.email, .int r.confirmed_at, boolValue r.opt_out] =
      .ok (entryOfRow r) := by
  cases ho : r.opt_out <;> simp [emailEntryFromRow, scanRow, boolValue, ho, entryOfRow]

theorem getEmail_rows (env : Env) (rows : List Row) (e : String) :
    GetEmail env (some rows) e =
      (.ok ((rows.find? (fun r => r.email == e)).map entryOfRow), some rows) := by
  simp only [GetEmail, dbQuery, run_getEmail]
  generalize some rows = db
  induction rows with
  | nil => rfl
  | cons a rs ih =>
    by_cases h : (a.email == e) = true
    · simp only [List.filter_cons, h, if_true, List.map_cons, List.find?_cons,
        emailEntryFromRow_row, Option.map_some']
    · simp only [Bool.not_eq_true] at h
      simp only [List.filter_cons, h, List.find?_cons]
      exact ih

theorem updateEmail_some (env : Env) (db : DB) (id : Int) (e : String) (t : Time) (o : Bool) :
    UpdateEmail env db ⟨id, e, some t, o⟩ =
      (.ret (some (.sqlite ⟨1, 1, "near \"opt_out\": syntax error"⟩)), db) := by
  simp only [UpdateEmail, dbQuery, run_updateEmail]

theorem deleteEmail_rows (env : Env) (rows : List Row) (e : String) :
    DeleteEmail env (some rows) e = (none, some (rows.map (optOutIf e))) := by
  simp only [DeleteEmail, dbExec, run_deleteEmail]
  rfl

theorem scanRows_map (rs : List Row) (acc : List EmailEntry) :
    scanRows (rs.map (fun r => [.int r.id, .text r.email, .int r.confirmed_at, boolValue r.opt_out])) acc
      = .ok (acc ++ rs.map entryOfRow) := by
  induction rs generalizing acc with
  | nil => simp [scanRows]
  | cons a rs ih =>
    simp only [List.map_cons, scanRows, emailEntryFromRow_row, ih, List.append_assoc,
      List.singleton_append]

theorem getEmailBatch_rows (env : Env) (rows : List Row) (p : GetEmailBatchQueryParams) :
    GetEmailBatch env (some rows) p =
      match makeslice env.memory p.Count with
      | some (.panic msg) => (.panic msg, some rows)
      | some (.fatal msg) => (.fatal msg, some rows)
      | none =>
        (.ret (.ok ((limitRows (some p.Count) (some (wrapInt64 (wrapInt64 (p.Page - 1) * p.Count)))
          (orderById (rows.filter (fun r => !r.opt_out)))).map entryOfRow)), some rows) := by
  simp only [GetEmailBatch, dbQuery, run_getEmailBatch, scanRows_map, List.nil_append]

theorem storage_no_table (env : Env) (e : String) (p : GetEmailBatchQueryParams) :
    CreateEmail env none e = (some (.sqlite (noSuchTable "emails")), none) ∧
    GetEmail env none e = (.error (.sqlite (noSuchTable "emails")), none) ∧
    DeleteEmail env none e = (some (.sqlite (noSuchTable "emails")), none) ∧
    GetEmailBatch env none p = (.ret (.error (.sqlite (noSuchTable "emails"))), none) := by
  refine ⟨?_, ?_, ?_, ?_⟩
  · simp only [CreateEmail, dbExec, run_no_table _ createEmailSql _ (Or.inl rfl)]
  · simp only [GetEmail, dbQuery, run_no_table _ getEmailSql _ (Or.inr (Or.inl rfl))]
  · simp only [DeleteEmail, dbExec, run_no_table _ deleteEmailSql _ (Or.inr (Or.inr (Or.inl rfl)))]
  · simp only [GetEmailBatch, dbQuery,
      run_no_table _ getEmailBatchSql _ (Or.inr (Or.inr (Or.inr rfl)))]

end maildatabase

/-! ## For comparison: the two rejected statements with the comma repaired -/

namespace maildatabase
open sqlite

/-- With a comma between the two assignments the upsert text is accepted. -/
theorem prepare_upsert_with_comma :
    prepare true "INSERT INTO emails(email, confirmed_at, opt_out) VALUES(?,?,?) ON CONFLICT(email) DO UPDATE SET confirmed_at=?, opt_out=?" =
      .ok (Stmt.insert "emails" ["email", "confirmed_at", "opt_out"]
        [Expr.param 0, Expr.param 1, Expr.param 2]
        (some ⟨"email", [("confirmed_at", Expr.param 3), ("opt_out", Expr.param 4)]⟩)) := by
  rfl

/-- The accepted upsert text replaces `confirmed_at` and `opt_out` of the row
that has the email, and adds a row when none has it. -/
theorem run_upsert_with_comma :
    run (fun _ => 0) (some [⟨1, "a@x.com", 0, true⟩])
        "INSERT INTO emails(email, confirmed_at, opt_out) VALUES(?,?,?) ON CONFLICT(email) DO UPDATE SET confirmed_at=?, opt_out=?"
        [.text "a@x.com", .int 100, .int 0, .int 100, .int 0] =
      (.ok [], some [⟨1, "a@x.com", 100, false⟩]) ∧
    run (fun _ => 0) (some [⟨1, "a@x.com", 0, true⟩])
        "INSERT INTO emails(email, confirmed_at, opt_out) VALUES(?,?,?) ON CONFLICT(email) DO UPDATE SET confirmed_at=?, opt_out=?"
        [.text "b@x.com", .int 100, .int 0, .int 100, .int 0] =
      (.ok [], some [⟨1, "a@x.com", 0, true⟩, ⟨2, "b@x.com", 100, false⟩]) := by
  decide

/-- Without the comma before the closing parenthesis the CREATE TABLE text is
accepted; it creates the table where there is none and reports "table emails
already exists" with code 1 where there is one. -/
theorem run_create_without_trailing_comma :
    run (fun _ => 0) none "CREATE TABLE emails (id INTEGER PRIMARY KEY, email TEXT UNIQUE, confirmed_at INTEGER, opt_out INTEGER);" [] =
      (.ok [], some []) ∧
    run (fun _ => 0) (some []) "CREATE TABLE emails (id INTEGER PRIMARY KEY, email TEXT UNIQUE, confirmed_at INTEGER, opt_out INTEGER);" [] =
      (.error ⟨1, 1, "table emails already exists"⟩, some []) := by
  decide

/-! ### The rowid search at the largest rowid -/

/-- At the largest rowid SQLite assigns the first unused candidate of its random
search: with 2^63 - 1 in use and the random value 122450194119442715 the new
row gets rowid 122450194119442716; when all 100 candidates are in use the
INSERT fails with SQLITE_FULL. -/
theorem createEmail_at_largest_rowid :
    CreateEmail ⟨fun _ => 122450194119442715, 0⟩ (some [⟨2 ^ 63 - 1, "b@x.com", 0, false⟩])
        "a@x.com" =
      (none, some [⟨2 ^ 63 - 1, "b@x.com", 0, false⟩, ⟨122450194119442716, "a@x.com", 0, false⟩]) ∧
    CreateEmail ⟨fun _ => 0, 0⟩
        (some [⟨2 ^ 63 - 1, "b@x.com", 0, false⟩, ⟨1, "c@x.com", 0, false⟩]) "a@x.com" =
      (some (.sqlite sqliteFull),
        some [⟨2 ^ 63 - 1, "b@x.com", 0, false⟩, ⟨1, "c@x.com", 0, false⟩]) := by
  decide

end maildatabase

/-! ## The claims -/

namespace maildatabase
open sqlite

theorem wrapInt64_of_nonneg_lt (n : Int) (h0 : 0 ≤ n) (h1 : n < 2 ^ 63) : wrapInt64 n = n := by
  unfold wrapInt64
  have : (n + 2 ^ 63) % 2 ^ 64 = n + 2 ^ 63 := by
    apply Int.emod_eq_of_lt <;> omega
  omega

theorem filter_not_opt_out (rows : List Row) :
    rows.filter (fun r => !r.opt_out) = rows.filter (fun r => decide (r.opt_out = false)) := by
  congr 1
  funext r
  cases r.opt_out <;> rfl

theorem orderById_sorted (rows : List Row) :
    (orderById rows).Pairwise (fun a b => a.id ≤ b.id) := by
  haveI : IsTotal Row (fun a b => a.id ≤ b.id) := ⟨fun a b => le_total a.id b.id⟩
  haveI : IsTrans Row (fun a b => a.id ≤ b.id) := ⟨fun a b c hab hbc => le_trans hab hbc⟩
  exact List.sorted_insertionSort (fun a b : Row => a.id ≤ b.id) rows

/-- Where the offset does not overflow and the slice can be allocated,
`GetEmailBatch` returns the page of the specification. -/
theorem getEmailBatch_within_limits (env : Env) (rows : List Row) (page count : Int)
    (hp : 1 ≤ page) (hc : 1 ≤ count) (hcap : sizeofEmailEntry * count ≤ maxAlloc)
    (hmem : sizeofEmailEntry * count ≤ env.memory)
    (hoff : (page - 1) * count < 2 ^ 63) :
    GetEmailBatch env (some rows) ⟨page, count⟩ =
      (.ret (.ok (GetPageSpec rows page count)), some rows) ∧
    (∀ x ∈ GetPageSpec rows page count, x.OptOut = false) ∧
    (GetPageSpec rows page count).Pairwise (fun a b => a.Id ≤ b.Id) ∧
    ((GetPageSpec rows page count).length : Int) ≤ count ∧
    (((rows.filter (fun r => r.opt_out = false)).length : Int) ≤ (page - 1) * count →
      GetPageSpec rows page count = []) := by
  have hp0 : 0 ≤ page - 1 := by omega
  have hle : page - 1 ≤ (page - 1) * count := by nlinarith
  have hw1 : wrapInt64 (page - 1) = page - 1 := wrapInt64_of_nonneg_lt _ hp0 (by omega)
  have hw2 : wrapInt64 ((page - 1) * count) = (page - 1) * count :=
    wrapInt64_of_nonneg_lt _ (by positivity) hoff
  have hnp : makeslice env.memory count = none := by
    unfold makeslice
    rw [if_neg (by omega), if_neg (by omega)]
  have hsorted := orderById_sorted (rows.filter (fun r => decide (r.opt_out = false)))
  refine ⟨?_, ?_, ?_, ?_, ?_⟩
  · rw [getEmailBatch_rows]
    simp only [hnp, hw1, hw2, limitRows, Option.getD_some, filter_not_opt_out, GetPageSpec, orderById]
    have : ¬ count < 0 := by omega
    simp [this]
  · intro x hx
    simp only [GetPageSpec, List.mem_map] at hx
    obtain ⟨r, hr, rfl⟩ := hx
    have h1 := List.mem_of_mem_drop (List.mem_of_mem_take hr)
    have h2 := (List.perm_insertionSort _ _).subset h1
    simpa [entryOfRow] using (List.mem_filter.1 h2).2
  · simp only [GetPageSpec]
    rw [List.pairwise_map]
    exact (hsorted.sublist (List.drop_sublist _ _)).sublist (List.take_sublist _ _)
  · simp only [GetPageSpec, List.length_map, List.length_take]
    have := Int.toNat_of_nonneg (show 0 ≤ count by omega)
    omega
  · intro hlen
    simp only [GetPageSpec]
    have hl : ((rows.filter (fun r => decide (r.opt_out = false))).insertionSort
        (fun a b => a.id ≤ b.id)).length ≤ ((page - 1) * count).toNat := by
      rw [List.length_insertionSort]
      omega
    rw [List.drop_eq_nil_of_le hl]
    simp

/-- C3 fails on the code.  `GetEmailBatch` allocates a slice of capacity `Count`
before it reads a row and computes the offset in 64-bit arithmetic.  For every
table: with `Count = 2^50` the call panics in `make`; with
`Count = 7036874417766`, a slice of 2^48 - 16 bytes, and 2^30 bytes to allocate
the runtime ends the process.
With `Page = 2^62 + 1` and `Count = 4` the offset `2^64` wraps to 0, so the one
stored record is returned although the page of the specification, far past
the end, is empty. -/
theorem getEmailBatch_large_count_or_page (env : Env) (rows : List Row) :
    GetEmailBatch env (some rows) ⟨1, 2 ^ 50⟩ =
      (.panic "runtime error: makeslice: cap out of range", some rows) ∧
    GetEmailBatch plainEnv (some rows) ⟨1, 7036874417766⟩ =
      (.fatal "fatal error: runtime: out of memory", some rows) ∧
    GetEmailBatch plainEnv (some [⟨1, "a@x.com", 0, false⟩]) ⟨2 ^ 62 + 1, 4⟩ =
      (.ret (.ok [⟨1, "a@x.com", some (timeUnix 0 0), false⟩]), some [⟨1, "a@x.com", 0, false⟩]) ∧
    GetPageSpec [⟨1, "a@x.com", 0, false⟩] (2 ^ 62 + 1) 4 = [] := by
  refine ⟨?_, ?_, ?_, ?_⟩
  · rw [getEmailBatch_rows]
    have : makeslice env.memory (2 ^ 50) =
        some (.panic "runtime error: makeslice: cap out of range") := by
      unfold makeslice
      rw [if_pos (Or.inr (by decide))]
    simp only [this]
  · rw [getEmailBatch_rows]
    have : makeslice plainEnv.memory 7036874417766 =
        some (.fatal "fatal error: runtime: out of memory") := by
      unfold makeslice maxAlloc sizeofEmailEntry plainEnv
      rw [if_neg (by norm_num), if_pos (by norm_num)]
    simp only [this]
  · rw [getEmailBatch_rows]
    have : makeslice plainEnv.memory 4 = none := by
      unfold makeslice maxAlloc sizeofEmailEntry plainEnv
      rw [if_neg (by norm_num), if_neg (by norm_num)]
    simp only [this]
    decide
  · decide

/-- C2 fails on the code.  The statement text of `UpdateEmail` has no comma
between `confirmed_at=?` and `opt_out=?`, so SQLite rejects it when preparing
it: for every database, email, timestamp and flag the call returns that syntax
error and the database is unchanged.  On the empty table, the record upserted
with confirmation time 100 is not there afterwards. -/
theorem updateEmail_fails (env : Env) (db : DB) (id : Int) (e : String) (T : Time)
    (optOut : Bool) :
    UpdateEmail env db ⟨id, e, some T, optOut⟩ =
      (.ret (some (.sqlite ⟨1, 1, "near \"opt_out\": syntax error"⟩)), db) ∧
    prepare db.isSome updateEmailSql = .error ⟨1, 1, "near \"opt_out\": syntax error"⟩ ∧
    (UpdateEmail env (some []) ⟨0, "a@x.com", some ⟨100, 0⟩, false⟩).1 ≠ .ret none ∧
    GetEmail env (UpdateEmail env (some []) ⟨0, "a@x.com", some ⟨100, 0⟩, false⟩).2 "a@x.com" =
      (.ok none, some []) := by
  refine ⟨updateEmail_some env db id e T optOut, prepare_updateEmailSql _, ?_, ?_⟩
  · rw [updateEmail_some]; decide
  · rw [updateEmail_some, getEmail_rows]; rfl

/-- C9 fails on the code.  `TryCreateDatabase` returns normally on every
`sqlite3.Error` whose code is 1 (SQLITE_ERROR, the generic code), not only on
"table already exists"; other codes and other error types are fatal.  The
CREATE TABLE text of the program has a comma before the closing parenthesis:
on a database without the table, preparing it raises a syntax error with code
1, and `TryCreateDatabase` returns normally with the table still missing.  On
a database that has the table SQLite reports "table emails already exists".
So `TryCreateDatabase` returns normally on every database and never changes
it. -/
theorem tryCreateDatabase_code_1 (env : Env) (db : DB) (rows : List Row) (e : SqlError)
    (msg : String) :
    TryCreateDatabase.onError (some (.sqlite e)) =
      (if e.code ≠ 1 then .fatal e.msg else .returns) ∧
    TryCreateDatabase.onError (some (.other msg)) = .fatal msg ∧
    TryCreateDatabase.onError (some (.sqlite ⟨1, 1, "table emails already exists"⟩)) = .returns ∧
    TryCreateDatabase.onError (some (.sqlite ⟨1, 1, "near \")\": syntax error"⟩)) = .returns ∧
    dbExec env none createTableSql [] =
      (some (.sqlite ⟨1, 1, "near \")\": syntax error"⟩), none) ∧
    dbExec env (some rows) createTableSql [] =
      (some (.sqlite ⟨1, 1, "table emails already exists"⟩), some rows) ∧
    TryCreateDatabase env none = (.returns, none) ∧
    TryCreateDatabase env db = (.returns, db) := by
  have h1 : dbExec env none createTableSql [] =
      (some (.sqlite ⟨1, 1, "near \")\": syntax error"⟩), none) := by
    simp only [dbExec, run_createTable_new]
  have h2 : ∀ rs : List Row, dbExec env (some rs) createTableSql [] =
      (some (.sqlite ⟨1, 1, "table emails already exists"⟩), some rs) := by
    intro rs
    simp only [dbExec, run_createTable_present]
  have h3 : TryCreateDatabase env none = (.returns, none) := by
    simp only [TryCreateDatabase, h1]
    rfl
  refine ⟨rfl, rfl, rfl, rfl, h1, h2 rows, h3, ?_⟩
  cases db with
  | none => exact h3
  | some rs =>
    simp only [TryCreateDatabase, h2 rs]
    rfl

end maildatabase

namespace jsonapi
open sqlite maildatabase

theorem getEmail_db (env : Env) (db : DB) (e : String) :
    (maildatabase.GetEmail env db e).2 = db := by
  cases db with
  | none => rw [(storage_no_table env e ⟨0, 0⟩).2.1]
  | some rows => rw [getEmail_rows]

theorem getEmailBatch_db (env : Env) (db : DB) (p : GetEmailBatchQueryParams) :
    (maildatabase.GetEmailBatch env db p).2 = db := by
  cases db with
  | none => rw [(storage_no_table env "" p).2.2.2]
  | some rows =>
    rw [getEmailBatch_rows]
    split <;> rfl

theorem updateEmail_db (env : Env) (db : DB) (entry : EmailEntry) :
    (maildatabase.UpdateEmail env db entry).2 = db := by
  obtain ⟨id, e, t, o⟩ := entry
  cases t with
  | none => rfl
  | some t => rw [updateEmail_some]

theorem run_step (env : Env) (rows : List Row) (c : StorageCall) :
    ∃ rows', c.run env (some rows) = some rows' ∧
      rows.map (fun r => (r.id, r.email)) <+: rows'.map (fun r => (r.id, r.email)) := by
  cases c with
  | CreateEmail e =>
    simp only [StorageCall.run, createEmail_rows]
    cases nextRowid env.rowidDraws rows with
    | none => exact ⟨rows, rfl, List.prefix_refl _⟩
    | some id =>
      by_cases h : rows.any (fun r => r.email == e) = true
      · simp only [h, if_true]
        exact ⟨rows, rfl, List.prefix_refl _⟩
      · simp only [h, Bool.false_eq_true, if_false]
        exact ⟨_, rfl, by rw [List.map_append]; exact List.prefix_append _ _⟩
  | GetEmail e => exact ⟨rows, getEmail_db _ _ _, List.prefix_refl _⟩
  | UpdateEmail entry => exact ⟨rows, updateEmail_db _ _ _, List.prefix_refl _⟩
  | DeleteEmail e =>
    refine ⟨rows.map (optOutIf e), by simp only [StorageCall.run, deleteEmail_rows], ?_⟩
    rw [List.map_map]
    have : ((fun r : Row => (r.id, r.email)) ∘ optOutIf e) = (fun r : Row => (r.id, r.email)) := by
      funext r
      simp only [Function.comp, optOutIf]
      by_cases h : r.email = e <;> simp [h]
    rw [this]
  | GetEmailBatch p => exact ⟨rows, getEmailBatch_db _ _ _, List.prefix_refl _⟩

theorem runCalls_prefix (calls : List (Env × StorageCall)) (rows : List Row) :
    ∃ rows', runCalls (some rows) calls = some rows' ∧
      rows.map (fun r => (r.id, r.email)) <+: rows'.map (fun r => (r.id, r.email)) := by
  induction calls generalizing rows with
  | nil => exact ⟨rows, rfl, List.prefix_refl _⟩
  | cons c cs ih =>
    obtain ⟨rows1, h1, p1⟩ := run_step c.1 rows c.2
    obtain ⟨rows2, h2, p2⟩ := ih rows1
    refine ⟨rows2, ?_, p1.trans p2⟩
    simp only [runCalls, List.foldl_cons, h1]
    exact h2

/-- C8. For every content `rows` of table `emails` and every sequence of storage
calls (CreateEmail, GetEmail, UpdateEmail, DeleteEmail, GetEmailBatch), each in
an environment of its own, the table afterwards starts with the rows it had,
each with its id and email: no call removes a row or changes an id.
`GetEmail` and `GetEmailBatch` leave every database unchanged. -/
theorem storage_calls_keep_rows (rows : List Row) (calls : List (Env × StorageCall)) :
    (∃ rows', runCalls (some rows) calls = some rows' ∧
      rows.map (fun r => (r.id, r.email)) <+: rows'.map (fun r => (r.id, r.email)) ∧
      rows.length ≤ rows'.length ∧
      ∀ r ∈ rows, ∃ r' ∈ rows', r'.id = r.id ∧ r'.email = r.email) ∧
    (∀ (env : Env) (db : DB) (e : String), (maildatabase.GetEmail env db e).2 = db) ∧
    (∀ (env : Env) (db : DB) (p : GetEmailBatchQueryParams),
      (maildatabase.GetEmailBatch env db p).2 = db) := by
  refine ⟨?_, getEmail_db, getEmailBatch_db⟩
  obtain ⟨rows', h, hp⟩ := runCalls_prefix calls rows
  refine ⟨rows', h, hp, ?_, ?_⟩
  · simpa using hp.length_le
  · intro r hr
    have hm : (r.id, r.email) ∈ rows'.map (fun r => (r.id, r.email)) :=
      hp.subset (List.mem_map.2 ⟨r, hr, rfl⟩)
    obtain ⟨r', hr', he⟩ := List.mem_map.1 hm
    simp only [Prod.mk.injEq] at he
    exact ⟨r', hr', he.1, he.2⟩

/-- C10. For each of the five handlers and every request whose method is not
the handler's method, the handler returns with the response writer and the
database as they were and without any storage call. -/
theorem wrong_method_is_ignored (codec : JsonCodec) (env : Env) (db : DB) (w : ResponseWriter)
    (r : Request) :
    (r.Method ≠ "POST" → CreateEmail codec env db w r = ⟨w, db, [], none⟩) ∧
    (r.Method ≠ "GET" → GetEmail codec env db w r = ⟨w, db, [], none⟩) ∧
    (r.Method ≠ "PUT" → UpdateEmail codec env db w r = ⟨w, db, [], none⟩) ∧
    (r.Method ≠ "POST" → DeleteEmail codec env db w r = ⟨w, db, [], none⟩) ∧
    (r.Method ≠ "GET" → GetEmailBatch codec env db w r = ⟨w, db, [], none⟩) := by
  refine ⟨?_, ?_, ?_, ?_, ?_⟩ <;> intro h
  · simp only [CreateEmail, h, if_true, ne_eq, not_false_eq_true]
  · simp only [GetEmail, h, if_true, ne_eq, not_false_eq_true]
  · simp only [UpdateEmail, h, if_true, ne_eq, not_false_eq_true]
  · simp only [DeleteEmail, h, if_true, ne_eq, not_false_eq_true]
  · simp only [GetEmailBatch, h, if_true, ne_eq, not_false_eq_true]

/-- C10 for a GET sent to create and a POST sent to get_batch. -/
theorem wrong_method_is_ignored_witness :
    CreateEmail blankCodec plainEnv (some []) newResponseWriter ⟨"GET", ""⟩ =
      ⟨newResponseWriter, some [], [], none⟩ ∧
    GetEmailBatch blankCodec plainEnv (some []) newResponseWriter ⟨"POST", ""⟩ =
      ⟨newResponseWriter, some [], [], none⟩ :=
  ⟨(wrong_method_is_ignored blankCodec plainEnv (some []) newResponseWriter ⟨"GET", ""⟩).1
      (by decide),
   (wrong_method_is_ignored blankCodec plainEnv (some []) newResponseWriter ⟨"POST", ""⟩).2.2.2.2
      (by decide)⟩

theorem returnErr_new (codec : JsonCodec) (db : DB) (calls : List StorageCall) (err : GoError)
    (code : Nat) :
    returnErr codec ⟨newResponseWriter, db, calls, none⟩ err code =
      ⟨⟨jsonHeader, some code, [errEnvelope err.Error]⟩, db, calls, none⟩ := by
  rfl

theorem marshalError_ok (err : GoError) : ∃ j, marshalError err = .ok j := by
  cases err with
  | sqlite e => exact ⟨_, rfl⟩
  | other m => exact ⟨_, rfl⟩

theorem returnJsonData_error (codec : JsonCodec) (db : DB) (calls : List StorageCall)
    (withData : Handled → Outcome (Except GoError Payload) × Handled) (err : GoError)
    (st2 : Handled)
    (h : withData ⟨setJsonHeader newResponseWriter, db, calls, none⟩ = (.ret (.error err), st2))
    (hw : st2.w = setJsonHeader newResponseWriter) :
    ∃ j, marshalError err = .ok j ∧
      (returnJsonData codec ⟨newResponseWriter, db, calls, none⟩ withData).w =
        ⟨jsonHeader, some 500, [j]⟩ := by
  obtain ⟨j, hj⟩ := marshalError_ok err
  refine ⟨j, hj, ?_⟩
  simp only [returnJsonData, h, hj, hw]
  rfl

theorem withGetEmail_error (env : Env) (email : String) (s : Handled) (err : GoError) (db' : DB)
    (h : maildatabase.GetEmail env s.db email = (.error err, db')) :
    withGetEmail env email s =
      (.ret (.error err), { s with db := db', calls := s.calls ++ [.GetEmail email] }) := by
  simp only [withGetEmail, h]

theorem withGetEmailBatch_error (env : Env) (q : GetEmailBatchQueryParams) (s : Handled)
    (err : GoError) (db' : DB)
    (h : maildatabase.GetEmailBatch env s.db q = (.ret (.error err), db')) :
    withGetEmailBatch env q s =
      (.ret (.error err), { s with db := db', calls := s.calls ++ [.GetEmailBatch q] }) := by
  simp only [withGetEmailBatch, h]

/-- The batch handler on a valid request, as a function of what
`maildatabase.GetEmailBatch` does with the decoded values. -/
theorem getEmailBatch_valid (codec : JsonCodec) (env : Env) (db : DB) (r : Request)
    (get : r.Method = "GET")
    (pos : 0 < (codec.unmarshalParams r.Body ⟨0, 0⟩).Page ∧
      0 < (codec.unmarshalParams r.Body ⟨0, 0⟩).Count) :
    GetEmailBatch codec env db newResponseWriter r =
      returnJsonData codec ⟨newResponseWriter, db, [], none⟩
        (withGetEmailBatch env (codec.unmarshalParams r.Body ⟨0, 0⟩)) := by
  have h' : ¬ ((codec.unmarshalParams r.Body ⟨0, 0⟩).Count ≤ 0 ∨
      (codec.unmarshalParams r.Body ⟨0, 0⟩).Page ≤ 0) := by omega
  simp only [GetEmailBatch, get, ne_eq, not_true_eq_false, if_false, fromJson, h']

/-- C5. For every GET request to the get_batch handler, on a new response
writer.  When the decoded `Page` or `Count` is not positive the response has
the JSON content type, status 400 and body `{"Err": message}`, whatever the
database holds; the database is untouched and no storage call is made.  When
both are positive the response is made of what
`maildatabase.GetEmailBatch` returns for this database and exactly the decoded
values: the marshalled list with status 200 (status 500 and no body when it
cannot be marshalled), the encoded error with status 500 when the call returns
an error, and no status or body when the call panics or the runtime ends the
process; the database is the one the call leaves. -/
theorem getEmailBatch_validation (codec : JsonCodec) (env : Env) (db : DB) (r : Request)
    (get : r.Method = "GET") :
    ((codec.unmarshalParams r.Body ⟨0, 0⟩).Page ≤ 0 ∨ (codec.unmarshalParams r.Body ⟨0, 0⟩).Count ≤ 0 →
      GetEmailBatch codec env db newResponseWriter r =
        ⟨⟨jsonHeader, some 400, [errEnvelope batchValidationMessage]⟩, db, [], none⟩) ∧
    (0 < (codec.unmarshalParams r.Body ⟨0, 0⟩).Page ∧ 0 < (codec.unmarshalParams r.Body ⟨0, 0⟩).Count →
      (∀ es db' j,
        maildatabase.GetEmailBatch env db (codec.unmarshalParams r.Body ⟨0, 0⟩) =
          (.ret (.ok es), db') →
        jsonMarshal codec (.batch es) = .ok j →
        GetEmailBatch codec env db newResponseWriter r =
          ⟨⟨jsonHeader, some 200, [j]⟩, db',
            [.GetEmailBatch (codec.unmarshalParams r.Body ⟨0, 0⟩)], none⟩) ∧
      (∀ es db' msg,
        maildatabase.GetEmailBatch env db (codec.unmarshalParams r.Body ⟨0, 0⟩) =
          (.ret (.ok es), db') →
        jsonMarshal codec (.batch es) = .error msg →
        GetEmailBatch codec env db newResponseWriter r =
          ⟨⟨jsonHeader, some 500, []⟩, db',
            [.GetEmailBatch (codec.unmarshalParams r.Body ⟨0, 0⟩)], none⟩) ∧
      (∀ err db' j,
        maildatabase.GetEmailBatch env db (codec.unmarshalParams r.Body ⟨0, 0⟩) =
          (.ret (.error err), db') →
        marshalError err = .ok j →
        GetEmailBatch codec env db newResponseWriter r =
          ⟨⟨jsonHeader, some 500, [j]⟩, db',
            [.GetEmailBatch (codec.unmarshalParams r.Body ⟨0, 0⟩)], none⟩) ∧
      (∀ msg db',
        maildatabase.GetEmailBatch env db (codec.unmarshalParams r.Body ⟨0, 0⟩) =
          (.panic msg, db') →
        GetEmailBatch codec env db newResponseWriter r =
          ⟨⟨jsonHeader, none, []⟩, db',
            [.GetEmailBatch (codec.unmarshalParams r.Body ⟨0, 0⟩)], some (.panic msg)⟩) ∧
      (∀ msg db',
        maildatabase.GetEmailBatch env db (codec.unmarshalParams r.Body ⟨0, 0⟩) =
          (.fatal msg, db') →
        GetEmailBatch codec env db newResponseWriter r =
          ⟨⟨jsonHeader, none, []⟩, db',
            [.GetEmailBatch (codec.unmarshalParams r.Body ⟨0, 0⟩)], some (.fatal msg)⟩)) := by
  constructor
  · intro h
    have h' : (codec.unmarshalParams r.Body ⟨0, 0⟩).Count ≤ 0 ∨
        (codec.unmarshalParams r.Body ⟨0, 0⟩).Page ≤ 0 := h.symm
    simp only [GetEmailBatch, get, ne_eq, not_true_eq_false, if_false, fromJson, h', if_true,
      returnErr_new]
    rfl
  · intro pos
    rw [getEmailBatch_valid codec env db r get pos]
    refine ⟨?_, ?_, ?_, ?_, ?_⟩
    · intro es db' j h hj
      simp only [returnJsonData, withGetEmailBatch, h, hj]
      rfl
    · intro es db' msg h hj
      simp only [returnJsonData, withGetEmailBatch, h, hj]
      rfl
    · intro err db' j h hj
      simp only [returnJsonData, withGetEmailBatch, h, hj]
      rfl
    · intro msg db' h
      simp only [returnJsonData, withGetEmailBatch, h]
      rfl
    · intro msg db' h
      simp only [returnJsonData, withGetEmailBatch, h]
      rfl

/-- C5 for a GET with an empty body, which decodes to page 0 and count 0, and
for a GET decoded to page 1 and count 10 on a table of two records, one of
them opted out: the body lists the other one. -/
theorem getEmailBatch_validation_witness :
    (⟨"GET", ""⟩ : Request).Method = "GET" ∧
    GetEmailBatch blankCodec plainEnv (some [⟨1, "a@x.com", 0, true⟩, ⟨2, "b@x.com", 7, false⟩])
        newResponseWriter ⟨"GET", ""⟩ =
      ⟨⟨jsonHeader, some 400, [errEnvelope batchValidationMessage]⟩,
        some [⟨1, "a@x.com", 0, true⟩, ⟨2, "b@x.com", 7, false⟩], [], none⟩ ∧
    GetEmailBatch ⟨fun _ e => e, fun _ _ => ⟨1, 10⟩, fun t => .ok (toString t.sec)⟩ plainEnv
        (some [⟨1, "a@x.com", 0, true⟩, ⟨2, "b@x.com", 7, false⟩]) newResponseWriter ⟨"GET", ""⟩ =
      ⟨⟨jsonHeader, some 200,
          [.arr [[("Id", .num 2), ("Email", .str "b@x.com"), ("ConfirmedAt", .raw "7"),
            ("OptOut", .bool false)]]]⟩,
        some [⟨1, "a@x.com", 0, true⟩, ⟨2, "b@x.com", 7, false⟩],
        [.GetEmailBatch ⟨1, 10⟩], none⟩ :=
  ⟨rfl,
    (getEmailBatch_validation blankCodec plainEnv
      (some [⟨1, "a@x.com", 0, true⟩, ⟨2, "b@x.com", 7, false⟩]) ⟨"GET", ""⟩ rfl).1 (by decide),
    ((getEmailBatch_validation ⟨fun _ e => e, fun _ _ => ⟨1, 10⟩, fun t => .ok (toString t.sec)⟩
      plainEnv (some [⟨1, "a@x.com", 0, true⟩, ⟨2, "b@x.com", 7, false⟩]) ⟨"GET", ""⟩ rfl).2
        (by decide)).1 [⟨2, "b@x.com", some (timeUnix 7 0), false⟩]
      (some [⟨1, "a@x.com", 0, true⟩, ⟨2, "b@x.com", 7, false⟩])
      (.arr [[("Id", .num 2), ("Email", .str "b@x.com"), ("ConfirmedAt", .raw "7"),
        ("OptOut", .bool false)]])
      (by decide) (by decide)⟩

/-- C6 (amended). On a new response writer: when the write of create, update or
delete returns an error, the response has status 400 and body
`{"Err": message}`.  When the read that builds the response (`GetEmail` or
`GetEmailBatch`, run by `returnJsonData`) returns an error, as in the get and
get_batch handlers, the response has status 500 and its body is the JSON
encoding of the error value, not the `Err` envelope. -/
theorem storage_error_responses (codec : JsonCodec) (env : Env) (db db' : DB) (r : Request)
    (err : GoError) :
    (r.Method = "POST" →
      maildatabase.CreateEmail env db (codec.unmarshalEntry r.Body zeroEntry).Email = (some err, db') →
      (CreateEmail codec env db newResponseWriter r).w =
        ⟨jsonHeader, some 400, [errEnvelope err.Error]⟩) ∧
    (r.Method = "PUT" →
      maildatabase.UpdateEmail env db (codec.unmarshalEntry r.Body zeroEntry) =
        (.ret (some err), db') →
      (UpdateEmail codec env db newResponseWriter r).w =
        ⟨jsonHeader, some 400, [errEnvelope err.Error]⟩) ∧
    (r.Method = "POST" →
      maildatabase.DeleteEmail env db (codec.unmarshalEntry r.Body zeroEntry).Email = (some err, db') →
      (DeleteEmail codec env db newResponseWriter r).w =
        ⟨jsonHeader, some 400, [errEnvelope err.Error]⟩) ∧
    (∀ (calls : List StorageCall) (email : String),
      maildatabase.GetEmail env db email = (.error err, db') →
      ∃ j, marshalError err = .ok j ∧
        (returnJsonData codec ⟨newResponseWriter, db, calls, none⟩ (withGetEmail env email)).w =
          ⟨jsonHeader, some 500, [j]⟩) ∧
    (r.Method = "GET" →
      maildatabase.GetEmail env db (codec.unmarshalEntry r.Body zeroEntry).Email = (.error err, db') →
      ∃ j, marshalError err = .ok j ∧
        (GetEmail codec env db newResponseWriter r).w = ⟨jsonHeader, some 500, [j]⟩) ∧
    (r.Method = "GET" →
      0 < (codec.unmarshalParams r.Body ⟨0, 0⟩).Count ∧ 0 < (codec.unmarshalParams r.Body ⟨0, 0⟩).Page →
      maildatabase.GetEmailBatch env db (codec.unmarshalParams r.Body ⟨0, 0⟩) =
        (.ret (.error err), db') →
      ∃ j, marshalError err = .ok j ∧
        (GetEmailBatch codec env db newResponseWriter r).w = ⟨jsonHeader, some 500, [j]⟩) := by
  have hread : ∀ (calls : List StorageCall) (email : String),
      maildatabase.GetEmail env db email = (.error err, db') →
      ∃ j, marshalError err = .ok j ∧
        (returnJsonData codec ⟨newResponseWriter, db, calls, none⟩ (withGetEmail env email)).w =
          ⟨jsonHeader, some 500, [j]⟩ := by
    intro calls email h
    exact returnJsonData_error codec db calls _ err _ (withGetEmail_error env email _ err db' h) rfl
  refine ⟨?_, ?_, ?_, hread, ?_, ?_⟩
  · intro hm h
    simp only [CreateEmail, hm, ne_eq, not_true_eq_false, if_false, fromJson, h, returnErr_new]
  · intro hm h
    simp only [UpdateEmail, hm, ne_eq, not_true_eq_false, if_false, fromJson, h, returnErr_new]
  · intro hm h
    simp only [DeleteEmail, hm, ne_eq, not_true_eq_false, if_false, fromJson, h, returnErr_new]
  · intro hm h
    simp only [GetEmail, hm, ne_eq, not_true_eq_false, if_false, fromJson]
    exact hread [] _ h
  · intro hm hq h
    have h' : ¬ ((codec.unmarshalParams r.Body ⟨0, 0⟩).Count ≤ 0 ∨
        (codec.unmarshalParams r.Body ⟨0, 0⟩).Page ≤ 0) := by omega
    simp only [GetEmailBatch, hm, ne_eq, not_true_eq_false, if_false, fromJson, h']
    exact returnJsonData_error codec db [] _ err _ (withGetEmailBatch_error env _ _ err db' h) rfl

/-- C6 (amended) on a duplicate address, the update statement, and a database
without the table. -/
theorem storage_error_responses_witness :
    (CreateEmail blankCodec plainEnv (some [⟨1, "", 0, false⟩]) newResponseWriter ⟨"POST", ""⟩).w =
      ⟨jsonHeader, some 400, [errEnvelope "UNIQUE constraint failed: emails.email"]⟩ ∧
    (UpdateEmail ⟨fun _ e => { e with ConfirmedAt := some ⟨100, 0⟩ }, fun _ p => p, fun _ => .ok ""⟩
        plainEnv (some []) newResponseWriter ⟨"PUT", ""⟩).w =
      ⟨jsonHeader, some 400, [errEnvelope "near \"opt_out\": syntax error"]⟩ ∧
    (DeleteEmail blankCodec plainEnv none newResponseWriter ⟨"POST", ""⟩).w =
      ⟨jsonHeader, some 400, [errEnvelope "no such table: emails"]⟩ ∧
    (∃ j, marshalError (.sqlite (noSuchTable "emails")) = .ok j ∧
      (GetEmail blankCodec plainEnv none newResponseWriter ⟨"GET", ""⟩).w =
        ⟨jsonHeader, some 500, [j]⟩) ∧
    (∃ j, marshalError (.sqlite (noSuchTable "emails")) = .ok j ∧
      (GetEmailBatch ⟨fun _ e => e, fun _ _ => ⟨1, 10⟩, fun _ => .ok ""⟩ plainEnv none
        newResponseWriter ⟨"GET", ""⟩).w = ⟨jsonHeader, some 500, [j]⟩) :=
  ⟨(storage_error_responses blankCodec plainEnv (some [⟨1, "", 0, false⟩])
      (some [⟨1, "", 0, false⟩]) ⟨"POST", ""⟩ (.sqlite uniqueEmail)).1 rfl (by decide),
   (storage_error_responses
      ⟨fun _ e => { e with ConfirmedAt := some ⟨100, 0⟩ }, fun _ p => p, fun _ => .ok ""⟩
      plainEnv (some []) (some []) ⟨"PUT", ""⟩
      (.sqlite ⟨1, 1, "near \"opt_out\": syntax error"⟩)).2.1 rfl (by decide),
   (storage_error_responses blankCodec plainEnv none none ⟨"POST", ""⟩
      (.sqlite (noSuchTable "emails"))).2.2.1 rfl (by decide),
   (storage_error_responses blankCodec plainEnv none none ⟨"GET", ""⟩
      (.sqlite (noSuchTable "emails"))).2.2.2.2.1 rfl (by decide),
   (storage_error_responses ⟨fun _ e => e, fun _ _ => ⟨1, 10⟩, fun _ => .ok ""⟩ plainEnv none none
      ⟨"GET", ""⟩ (.sqlite (noSuchTable "emails"))).2.2.2.2.2 rfl (by decide) (by decide)⟩

/-- C6 as stated fails.  On a database without table `emails` the read of the
get handler fails with "no such table: emails"; the response has status 500,
not 400, and its body holds the numeric fields of the error, not
`{"Err": message}`. -/
theorem read_error_counterexample :
    maildatabase.GetEmail plainEnv none "" = (.error (.sqlite (noSuchTable "emails")), none) ∧
    (GetEmail blankCodec plainEnv none newResponseWriter ⟨"GET", ""⟩).w =
      ⟨jsonHeader, some 500,
        [.obj [("Code", .num 1), ("ExtendedCode", .num 1), ("SystemErrno", .num 0)]]⟩ ∧
    (GetEmail blankCodec plainEnv none newResponseWriter ⟨"GET", ""⟩).w.status ≠ some 400 ∧
    (GetEmail blankCodec plainEnv none newResponseWriter ⟨"GET", ""⟩).w.body ≠
      [errEnvelope (GoError.sqlite (noSuchTable "emails")).Error] := by
  decide

/-- C7 fails on the code.  For an entry whose `ConfirmedAt` is nil,
`maildatabase.UpdateEmail` panics at `entry.ConfirmedAt.Unix()` before any
statement is sent.  A PUT whose body decodes to an entry without confirmation
time ends the update handler in that panic with nothing written to the
response; so does a PUT with an empty body. -/
theorem updateEmail_nil_confirmedAt_panics (codec : JsonCodec) (env : Env) (db : DB)
    (w : ResponseWriter) (r : Request) (id : Int) (e : String) (optOut : Bool) :
    maildatabase.UpdateEmail env db ⟨id, e, none, optOut⟩ =
      (.panic "runtime error: invalid memory address or nil pointer dereference", db) ∧
    (r.Method = "PUT" → (codec.unmarshalEntry r.Body zeroEntry).ConfirmedAt = none →
      UpdateEmail codec env db w r =
        ⟨w, db, [.UpdateEmail (codec.unmarshalEntry r.Body zeroEntry)],
          some (.panic "runtime error: invalid memory address or nil pointer dereference")⟩) ∧
    UpdateEmail blankCodec plainEnv (some []) newResponseWriter ⟨"PUT", ""⟩ =
      ⟨newResponseWriter, some [], [.UpdateEmail zeroEntry],
        some (.panic "runtime error: invalid memory address or nil pointer dereference")⟩ := by
  refine ⟨rfl, ?_, by decide⟩
  intro hm hnil
  simp only [UpdateEmail, hm, ne_eq, not_true_eq_false, if_false, fromJson,
    maildatabase.UpdateEmail, hnil]

end jsonapi
